import Mathlib

/-!
Verification development for the md-to-confluence publisher.

The definitions below are a shallow embedding of the Python sources:
  - src/converter/md_to_confluence_storage.py  (front matter, markdown
    normalizer, link rewriting)
  - src/publish_docs.py  (title candidates, ensure_page upsert,
    publish_entry, _link_resolver)
The remote Confluence store is modelled as explicit state (a list of
pages), with the same observable behaviour as the HTTP client wrapper
in src/confl_client.py (title-uniqueness failures carry the message
checked by is_title_exists; label/property writes are total; deleting a
missing label is a no-op).  Python exceptions are modelled with Except,
Python dictionaries with association lists whose keys are unique.
-/

set_option maxRecDepth 10000

/-- Whitespace as matched by Python's regex class backslash-s and by
str.strip (the ASCII whitespace characters plus the common Unicode
whitespace code points). -/
def isPyWs (c : Char) : Bool :=
  c = ' ' || c = '\t' || c = '\n' || c = '\r' || c = Char.ofNat 0x0b || c = Char.ofNat 0x0c ||
  c = Char.ofNat 0x1c || c = Char.ofNat 0x1d || c = Char.ofNat 0x1e || c = Char.ofNat 0x1f ||
  c = Char.ofNat 0x85 || c = Char.ofNat 0xa0 || c = Char.ofNat 0x1680 ||
  (0x2000 ≤ c.toNat && c.toNat ≤ 0x200a) ||
  c = Char.ofNat 0x2028 || c = Char.ofNat 0x2029 || c = Char.ofNat 0x202f ||
  c = Char.ofNat 0x205f || c = Char.ofNat 0x3000

def isDigitC (c : Char) : Bool := '0' ≤ c && c ≤ '9'

def isAlphaC (c : Char) : Bool := ('a' ≤ c && c ≤ 'z') || ('A' ≤ c && c ≤ 'Z')

/-- ASCII lowercasing of one character (models str.lower on the ASCII
range, which is the only range the sources compare case-insensitively). -/
def lowerC (c : Char) : Char :=
  if 'A' ≤ c && c ≤ 'Z' then Char.ofNat (c.toNat + 32) else c

def lowerStr (s : String) : String := String.mk (s.data.map lowerC)

/-- Python str.strip(): drop leading and trailing whitespace. -/
def pyStripList (l : List Char) : List Char :=
  ((l.dropWhile isPyWs).reverse.dropWhile isPyWs).reverse

def pyStrip (s : String) : String := String.mk (pyStripList s.data)

def strStartsWith (s pre : String) : Bool := pre.data.isPrefixOf s.data

def strEndsWith (s suf : String) : Bool := suf.data.reverse.isPrefixOf s.data.reverse

/-- Python substring containment (the `in` operator on str). -/
def strContains (s pat : String) : Bool :=
  (s.data.tails).any (fun t => pat.data.isPrefixOf t)

def strTake (s : String) (n : Nat) : String := String.mk (s.data.take n)

def strDropRight (s : String) (n : Nat) : String := String.mk (s.data.take (s.data.length - n))

/-- Remove duplicates keeping the first occurrence (the "uniq preserve
order" loops in publish_docs.py). -/
def dedupAux (seen : List String) : List String → List String
  | [] => []
  | x :: xs => if seen.contains x then dedupAux seen xs else x :: dedupAux (x :: seen) xs

def dedupKeepOrder (l : List String) : List String := dedupAux [] l

/-- Association lists standing in for Python dicts (keys kept unique,
insertion order preserved, exactly as CPython dicts behave). -/
abbrev Dict := List (String × String)

def dictGet (d : Dict) (k : String) : Option String :=
  match d with
  | [] => none
  | (k', v) :: rest => if k' = k then some v else dictGet rest k

def dictSet (d : Dict) (k v : String) : Dict :=
  match d with
  | [] => [(k, v)]
  | (k', v') :: rest => if k' = k then (k', v) :: rest else (k', v') :: dictSet rest k v

/-- Python dict.pop(k, None): the key is removed entirely (dict keys are
unique, so removing every entry with that key models it). -/
def dictPop (d : Dict) (k : String) : Dict := d.filter (fun kv => kv.1 ≠ k)

/-- Python truthiness of an optional string: None and the empty string
are falsy (the sources test looked-up ids with plain `if page_id:`). -/
def pyOptStr : Option String → Option String
  | some s => if s = "" then none else some s
  | none => none

/-! SHA-1, as used through hashlib.sha1 in publish_docs.py (_sha1). -/

def w32 (x : Nat) : Nat := x % 4294967296

def rotl32 (x k : Nat) : Nat := w32 ((x <<< k) + (x >>> (32 - k)))

/-- UTF-8 encoding of one character (str.encode("utf-8")). -/
def utf8EncodeChar (c : Char) : List Nat :=
  let n := c.toNat
  if n < 0x80 then [n]
  else if n < 0x800 then [0xc0 + n / 64, 0x80 + n % 64]
  else if n < 0x10000 then [0xe0 + n / 4096, 0x80 + (n / 64) % 64, 0x80 + n % 64]
  else [0xf0 + n / 262144, 0x80 + (n / 4096) % 64, 0x80 + (n / 64) % 64, 0x80 + n % 64]

def utf8Encode (s : String) : List Nat := (s.data.map utf8EncodeChar).flatten

def sha1Pad (msg : List Nat) : List Nat :=
  let len := msg.length
  let k := (56 + 64 - (len + 1) % 64) % 64
  let bits := len * 8
  msg ++ [0x80] ++ List.replicate k 0 ++
    ((List.range 8).map (fun i => (bits >>> (8 * (7 - i))) % 256))

def sha1Chunks : Nat → List Nat → List (List Nat)
  | 0, _ => []
  | _, [] => []
  | fuel + 1, l => l.take 64 :: sha1Chunks fuel (l.drop 64)

def sha1Words (block : List Nat) : List Nat :=
  (List.range 16).map (fun i =>
    block.getD (4 * i) 0 * 16777216 + block.getD (4 * i + 1) 0 * 65536 +
    block.getD (4 * i + 2) 0 * 256 + block.getD (4 * i + 3) 0)

/-- Message-schedule extension; `acc` holds the words produced so far in
reverse order. -/
def sha1Extend : Nat → List Nat → List Nat
  | 0, acc => acc.reverse
  | fuel + 1, acc =>
      sha1Extend fuel
        (rotl32 (Nat.xor (Nat.xor (acc.getD 2 0) (acc.getD 7 0))
                 (Nat.xor (acc.getD 13 0) (acc.getD 15 0))) 1 :: acc)

def sha1F (i b c d : Nat) : Nat :=
  if i < 20 then Nat.lor (Nat.land b c) (Nat.land (Nat.xor b 4294967295) d)
  else if i < 40 then Nat.xor (Nat.xor b c) d
  else if i < 60 then Nat.lor (Nat.lor (Nat.land b c) (Nat.land b d)) (Nat.land c d)
  else Nat.xor (Nat.xor b c) d

def sha1K (i : Nat) : Nat :=
  if i < 20 then 0x5a827999
  else if i < 40 then 0x6ed9eba1
  else if i < 60 then 0x8f1bbcdc
  else 0xca62c1d6

def sha1Rounds : Nat → List Nat → (Nat × Nat × Nat × Nat × Nat) → (Nat × Nat × Nat × Nat × Nat)
  | _, [], st => st
  | i, w :: ws, (a, b, c, d, e) =>
      let temp := w32 (rotl32 a 5 + sha1F i b c d + e + sha1K i + w)
      sha1Rounds (i + 1) ws (temp, a, rotl32 b 30, c, d)

def sha1Block (h : Nat × Nat × Nat × Nat × Nat) (block : List Nat) : Nat × Nat × Nat × Nat × Nat :=
  let ws := sha1Extend 64 (sha1Words block).reverse
  let (a, b, c, d, e) := sha1Rounds 0 ws h
  let (h0, h1, h2, h3, h4) := h
  (w32 (h0 + a), w32 (h1 + b), w32 (h2 + c), w32 (h3 + d), w32 (h4 + e))

def hexDigit (n : Nat) : Char := "0123456789abcdef".data.getD n '0'

def hexWord32 (x : Nat) : List Char :=
  (List.range 8).map (fun i => hexDigit ((x >>> (4 * (7 - i))) % 16))

/-- hashlib.sha1(s.encode("utf-8")).hexdigest(), the _sha1 helper of
publish_docs.py. -/
def sha1hex (s : String) : String :=
  let padded := sha1Pad (utf8Encode s)
  let (h0, h1, h2, h3, h4) :=
    (sha1Chunks (padded.length) padded).foldl sha1Block
      (0x67452301, 0xefcdab89, 0x98badcfe, 0x10325476, 0xc3d2e1f0)
  String.mk (hexWord32 h0 ++ hexWord32 h1 ++ hexWord32 h2 ++ hexWord32 h3 ++ hexWord32 h4)

example : sha1hex "abc" = "a9993e364706816aba3e25717850c26c9cd0d89d" := by decide

/-- Content property key storing publisher metadata (PROPERTY_KEY). -/
def PROPERTY_KEY : String := "md2conf_source"

/-- Deterministic legacy label for a key (_label_for). -/
def label_for (key : String) : String := "src-" ++ strTake (sha1hex key) 12

/-! Front matter (strip_front_matter and _FRONT_MATTER_RE in
md_to_confluence_storage.py).  The regex is
  caret dash dash dash \s* newline (lazy any, DOTALL) newline dash dash dash \s* newline
and is matched at the start of the text with full backtracking
semantics: the opening delimiter's \s* is greedy (it backtracks over
the newlines it contains), the captured group is lazy (earliest closing
delimiter wins), and the closing delimiter's \s* is greedy again. -/

/-- Positions of newline characters in a character list. -/
def nlPositions (l : List Char) : List Nat :=
  (l.enum.filter (fun p => p.2 = '\n')).map (fun p => p.1)

/-- Index of the last newline in a list, if any. -/
def lastNlPos (l : List Char) : Option Nat := (nlPositions l).getLast?

/-- Scan for the earliest closing delimiter: a newline followed by three
dashes followed by a whitespace run containing a newline.  `pre` holds
the group characters collected so far, reversed.  On success returns the
captured group and the text after the overall match. -/
def fmClosing : List Char → List Char → Option (List Char × List Char)
  | _, [] => none
  | pre, '\n' :: tl =>
      if tl.take 3 = ['-', '-', '-'] then
        let after := tl.drop 3
        let w2 := after.takeWhile isPyWs
        match lastNlPos w2 with
        | some k => some (pre.reverse, after.drop (k + 1))
        | none => fmClosing ('\n' :: pre) tl
      else fmClosing ('\n' :: pre) tl
  | pre, c :: tl => fmClosing (c :: pre) tl

def firstSome {α : Type} : List Nat → (Nat → Option α) → Option α
  | [], _ => none
  | s :: ss, f => match f s with | some r => some r | none => firstSome ss f

/-- Match of _FRONT_MATTER_RE at the start of `md`: returns the captured
raw front-matter text and the remaining body. -/
def fmMatch (md : String) : Option (String × String) :=
  let cs := md.data
  if cs.take 3 = ['-', '-', '-'] then
    let rest := cs.drop 3
    let w := rest.takeWhile isPyWs
    let starts := (nlPositions w).reverse.map (fun i => i + 1)
    firstSome starts (fun s =>
      match fmClosing [] (rest.drop s) with
      | some (raw, body) => some (String.mk raw, String.mk body)
      | none => none)
  else none

/-- YAML values as produced by yaml.safe_load. -/
inductive Yaml where
  | null : Yaml
  | bool : Bool → Yaml
  | int : Int → Yaml
  | str : String → Yaml
  | list : List Yaml → Yaml
  | map : List (String × Yaml) → Yaml

/-- Python falsiness of a YAML value (the `or` in `safe_load(raw) or` followed by
an empty dict literal). -/
def yamlFalsy : Yaml → Bool
  | .null => true
  | .bool b => !b
  | .int n => n = 0
  | .str s => s = ""
  | .list l => l.isEmpty
  | .map m => m.isEmpty

/-- A YAML loader: yaml.safe_load either returns a value or raises a
YAMLError.  PyYAML is an external library; the publisher only relies on
it through this interface, and it genuinely raises on malformed input. -/
def YamlLoader : Type := String → Except String Yaml

/-- strip_front_matter from md_to_confluence_storage.py, parameterised by
the YAML loader it delegates to.  Note the source wraps the loader call
in no handler, so a loader error propagates. -/
def strip_front_matter (load : YamlLoader) (md : String) : Except String (Yaml × String) :=
  match fmMatch md with
  | none => .ok (.map [], md)
  | some (raw, body) =>
      match load raw with
      | .error e => .error e
      | .ok v => .ok ((if yamlFalsy v then .map [] else v), body)

/-- A loader behaving like PyYAML on the inputs used in this file: it
raises a ScannerError on the unterminated flow sequence "a: [" (PyYAML
raises yaml.scanner.ScannerError there) and parses nothing else. -/
def yamlLoaderRaising : YamlLoader := fun s =>
  if s = "a: [" then .error "ScannerError: while parsing a flow node" else .ok (.map [])

example : fmMatch "---\ntitle: Hello\n---\nBody" = some ("title: Hello", "Body") := by decide
example : fmMatch "no front matter" = none := by decide
example : fmMatch "---\n\n---\nx" = some ("", "x") := by decide

/-! Markdown normalizer (_normalize_markdown and its regexes). -/

/-- Normalizer options, mirroring the MdToConfluenceStorage constructor
flags that _normalize_markdown consults. -/
structure NormCfg where
  strip_title_h1 : Bool
  promote_headings : Bool
  strip_heading_numbers : Bool
  heading_numbering_in_text : Bool
  heading_numbering_max_level : Nat
deriving DecidableEq

/-- Loop state of _normalize_markdown: fence toggle, first-H1 removal
flag and the three auto-numbering counters. -/
structure NormSt where
  in_fence : Bool
  removed_first_h1 : Bool
  n1 : Nat
  n2 : Nat
  n3 : Nat
deriving DecidableEq

def normSt0 : NormSt := ⟨false, false, 0, 0, 0⟩

/-- Effective max numbering level: `int(self.heading_numbering_max_level or 3)`
clamped to 1..6 (0 is falsy in Python, hence the `or 3`). -/
def maxLvl (cfg : NormCfg) : Nat :=
  let m := if cfg.heading_numbering_max_level = 0 then 3 else cfg.heading_numbering_max_level
  max 1 (min m 6)

/-- Match of _FENCE_RE: optional whitespace then three backticks or three
tildes. -/
def fenceMatch (core : List Char) : Bool :=
  let rest := core.dropWhile isPyWs
  rest.take 3 = ['`', '`', '`'] || rest.take 3 = ['~', '~', '~']

def dropTrailingWs (l : List Char) : List Char := (l.reverse.dropWhile isPyWs).reverse

/-- Match of _HEADING_RE: one to six hashes, at least one whitespace
character, then a non-empty lazily-captured text with trailing
whitespace stripped by the regex.  When everything after the hashes is
whitespace the pattern still matches (with at least two whitespace
characters) and captures the last whitespace character, exactly as the
backtracking regex does. -/
def headMatch (core : List Char) : Option (Nat × List Char) :=
  let hashes := core.takeWhile (fun c => c = '#')
  let n := hashes.length
  if n = 0 || 6 < n then none
  else
    let rest := core.drop n
    match rest.head? with
    | none => none
    | some c =>
        if !isPyWs c then none
        else
          let w := rest.takeWhile isPyWs
          let t := rest.drop w.length
          if t ≠ [] then some (n, dropTrailingWs t)
          else if 2 ≤ w.length then some (n, [w.getLastD ' '])
          else none

/-- One digit run plus following dot-digit groups, consumed greedily
(the inner part of _HEADING_NUM_PREFIX_RE's second alternative). -/
def chainConsume : Nat → List Char → List Char
  | 0, l => l
  | _, [] => []
  | fuel + 1, l =>
      match l with
      | '.' :: c :: rest =>
          if isDigitC c then chainConsume fuel (rest.dropWhile isDigitC)
          else l
      | _ => l

/-- Match of _HEADING_NUM_PREFIX_RE against heading text: optional
whitespace, then digits followed by a closing parenthesis, or digits
followed by a dot and an optional dotted digit chain and an optional
trailing dot (this alternative subsumes the third one of the regex),
then at least one whitespace character; returns the rest of the text. -/
def numPfxMatch (text : List Char) : Option (List Char) :=
  let afterWs := text.dropWhile isPyWs
  let d1 := afterWs.takeWhile isDigitC
  if d1 = [] then none
  else
    let r := afterWs.drop d1.length
    match r with
    | ')' :: r2 =>
        let w := r2.takeWhile isPyWs
        if w ≠ [] then some (r2.drop w.length) else none
    | '.' :: r2 =>
        let rem0 := if (r2.head?.map isDigitC).getD false then
            chainConsume r2.length (r2.dropWhile isDigitC) else r2
        let rem1 := match rem0 with
          | '.' :: r3 => r3
          | _ => rem0
        let w := rem1.takeWhile isPyWs
        if w ≠ [] then some (rem1.drop w.length) else none
    | _ => none

/-- _strip_heading_number_prefix: when enabled, strip a manual numeric
prefix and trailing/leading whitespace; the Python code applies .strip()
to the result in both the matched and unmatched case. -/
def stripHeadingNumPfx (cfg : NormCfg) (text : List Char) : List Char :=
  if !cfg.strip_heading_numbers then text
  else match numPfxMatch text with
    | some rest => pyStripList rest
    | none => pyStripList text

/-- The promoted heading level: H2 becomes H1 and so on, H1 stays. -/
def promoLevel (cfg : NormCfg) (lvl0 : Nat) : Nat :=
  if cfg.promote_headings && 1 < lvl0 then lvl0 - 1 else lvl0

/-- The auto-numbering update of _normalize_markdown for a heading at
(post-promotion) level `lvl` (only called for lvl at most 3): bump the
counters and compute the prefix string. -/
def numberHeading (st : NormSt) (lvl : Nat) : NormSt × List Char :=
  if lvl = 1 then
    ({ st with n1 := st.n1 + 1, n2 := 0, n3 := 0 }, (Nat.repr (st.n1 + 1)).data ++ ". ".data)
  else if lvl = 2 then
    let m1 := if st.n1 = 0 then 1 else st.n1
    ({ st with n1 := m1, n2 := st.n2 + 1, n3 := 0 },
      (Nat.repr m1).data ++ ".".data ++ (Nat.repr (st.n2 + 1)).data ++ ". ".data)
  else
    let m1 := if st.n1 = 0 then 1 else st.n1
    let m2 := if st.n2 = 0 then 1 else st.n2
    ({ st with n1 := m1, n2 := m2, n3 := st.n3 + 1 },
      (Nat.repr m1).data ++ ".".data ++ (Nat.repr m2).data ++ ".".data ++
      (Nat.repr (st.n3 + 1)).data ++ ". ".data)

/-- The body of the per-line loop in _normalize_markdown, acting on one
line core (without its terminator).  Returns the new state and the
output line (none when the line is dropped as the page title). -/
def normLine (cfg : NormCfg) (st : NormSt) (core : List Char) : NormSt × Option (List Char) :=
  if fenceMatch core then ({ st with in_fence := !st.in_fence }, some core)
  else if st.in_fence then (st, some core)
  else
    match headMatch core with
    | none => (st, some core)
    | some (lvl0, t0) =>
        if lvl0 = 1 && cfg.strip_title_h1 && !st.removed_first_h1 then
          ({ st with removed_first_h1 := true }, none)
        else
          let lvl := promoLevel cfg lvl0
          let t1 := stripHeadingNumPfx cfg t0
          if cfg.heading_numbering_in_text && lvl ≤ 3 && lvl ≤ maxLvl cfg then
            let (st', pfx) := numberHeading st lvl
            let t2 := if pfx.isPrefixOf t1 then t1 else pfx ++ t1
            (st', some (List.replicate lvl '#' ++ [' '] ++ t2))
          else
            (st, some (List.replicate lvl '#' ++ [' '] ++ t1))

/-- str.splitlines(keepends=True), modelled for the line terminators
newline, carriage-return+newline and lone carriage return. -/
def splitLinesKeep : List Char → List Char → List (List Char)
  | acc, [] => if acc = [] then [] else [acc.reverse]
  | acc, '\r' :: '\n' :: cs => (acc.reverse ++ ['\r', '\n']) :: splitLinesKeep [] cs
  | acc, '\r' :: cs => (acc.reverse ++ ['\r']) :: splitLinesKeep [] cs
  | acc, '\n' :: cs => (acc.reverse ++ ['\n']) :: splitLinesKeep [] cs
  | acc, c :: cs => splitLinesKeep (c :: acc) cs

/-- Split a kept line into core and terminator, exactly as the loop does
(only a trailing newline or carriage-return+newline is recognised). -/
def splitNl (line : List Char) : List Char × List Char :=
  match line.reverse with
  | '\n' :: '\r' :: r => (r.reverse, ['\r', '\n'])
  | '\n' :: r => (r.reverse, ['\n'])
  | _ => (line, [])

def normFold (cfg : NormCfg) : NormSt → List (List Char) → List Char
  | _, [] => []
  | st, line :: rest =>
      let (core, nl) := splitNl line
      let (st', out) := normLine cfg st core
      match out with
      | some core' => core' ++ nl ++ normFold cfg st' rest
      | none => normFold cfg st' rest

/-- _normalize_markdown from md_to_confluence_storage.py. -/
def normalize_markdown (cfg : NormCfg) (body : String) : String :=
  if !(cfg.strip_title_h1 || cfg.promote_headings || cfg.strip_heading_numbers ||
       cfg.heading_numbering_in_text) then body
  else String.mk (normFold cfg normSt0 (splitLinesKeep [] body.data))

/-- The converter configuration the publisher always uses for documents
(conv_plain in DocsPublisher.__init__, with the default numbering
options of publish.yml). -/
def convCfg : NormCfg :=
  { strip_title_h1 := true, promote_headings := true, strip_heading_numbers := true,
    heading_numbering_in_text := true, heading_numbering_max_level := 3 }

example : normalize_markdown convCfg "## 1.1 Second\n" = "# 1. Second\n" := by decide
example : normalize_markdown convCfg "## A\n### 1.1 Second\n" = "# 1. A\n## 1.1. Second\n" := by
  decide

/-! Link rewriting in the converter (_rewrite_links). -/

/-- An anchor element as _rewrite_links sees it: its href attribute and
the optional data-source-href marker attribute. -/
structure Anchor where
  href : String
  dataSourceHref : Option String
deriving DecidableEq

/-- The test `href.lower().endswith(".md") or ".md#" in href.lower()`. -/
def looksInternalMd (h : String) : Bool :=
  strEndsWith (lowerStr h) ".md" || strContains (lowerStr h) ".md#"

/-- The body of the per-anchor loop of _rewrite_links.  The loop strips
the href, skips anchors whose stripped href is empty, calls the resolver
(when one is set) with the stripped href, replaces the href when the
resolver returns a truthy value, and otherwise marks internal-looking
markdown links with the stripped href in data-source-href, leaving the
visible href untouched. -/
def rewrite_anchor (resolver : Option (String → Option String → Option String))
    (cur : Option String) (a : Anchor) : Anchor :=
  let h := pyStrip a.href
  if h = "" then a
  else
    let fallback := if looksInternalMd h then { a with dataSourceHref := some h } else a
    match resolver with
    | some r =>
        match r h cur with
        | some nh => if nh = "" then fallback else { a with href := nh }
        | none => fallback
    | none => fallback

/-- _rewrite_links over all anchors of the document. -/
def rewrite_links (resolver : Option (String → Option String → Option String))
    (cur : Option String) (anchors : List Anchor) : List Anchor :=
  anchors.map (rewrite_anchor resolver cur)

/-! URL handling for DocsPublisher._link_resolver: urllib.parse.urlparse,
urllib.parse.unquote and posixpath.normpath. -/

/-- Parsed URL components (urllib.parse.urlparse). -/
structure UrlParts where
  scheme : String
  netloc : String
  path : String
  params : String
  query : String
  fragment : String
deriving DecidableEq

def schemeChar (c : Char) : Bool := isAlphaC c || isDigitC c || c = '+' || c = '-' || c = '.'

/-- Split off a scheme: a leading alphabetic character followed by
scheme characters up to a colon; the scheme is lowercased. -/
def splitScheme (cs : List Char) : String × List Char :=
  let pre := cs.takeWhile (fun c => c ≠ ':')
  if pre.length < cs.length ∧ pre ≠ [] ∧ isAlphaC (pre.headD 'a') ∧ pre.all schemeChar then
    (String.mk (pre.map lowerC), cs.drop (pre.length + 1))
  else ("", cs)

def splitAtFirst (stop : Char) (cs : List Char) : List Char × List Char :=
  let pre := cs.takeWhile (fun c => c ≠ stop)
  if pre.length < cs.length then (pre, cs.drop (pre.length + 1)) else (pre, [])

/-- urlparse's params split: the part after a semicolon in the last path
segment. -/
def splitParams (path : List Char) : List Char × List Char :=
  let lastSeg := (path.reverse.takeWhile (fun c => c ≠ '/')).reverse
  if lastSeg.contains ';' then
    let pre := path.take (path.length - lastSeg.length)
    let (a, b) := splitAtFirst ';' lastSeg
    (pre ++ a, b)
  else (path, [])

/-- urllib.parse.urlparse (for the attributes the sources read:
scheme, path, fragment). -/
def urlparse (url : String) : UrlParts :=
  let (scheme, rest0) := splitScheme url.data
  let (netloc, rest1) :=
    if rest0.take 2 = ['/', '/'] then
      let body := rest0.drop 2
      let nl := body.takeWhile (fun c => c ≠ '/' ∧ c ≠ '?' ∧ c ≠ '#')
      (nl, body.drop nl.length)
    else ([], rest0)
  let (prefrag, fragment) :=
    if rest1.contains '#' then splitAtFirst '#' rest1 else (rest1, [])
  let (path0, query) :=
    if prefrag.contains '?' then splitAtFirst '?' prefrag else (prefrag, [])
  let (path, params) := if path0.contains ';' then splitParams path0 else (path0, [])
  { scheme := scheme, netloc := String.mk netloc, path := String.mk path,
    params := String.mk params, query := String.mk query, fragment := String.mk fragment }

def isHexC (c : Char) : Bool := isDigitC c || ('a' ≤ c && c ≤ 'f') || ('A' ≤ c && c ≤ 'F')

def hexVal (c : Char) : Nat :=
  if isDigitC c then c.toNat - 48
  else if 'a' ≤ c && c ≤ 'f' then c.toNat - 87
  else c.toNat - 55

/-- Tokenise a string into literal characters and percent-decoded bytes. -/
def pctTokens : List Char → List (Sum Char Nat)
  | [] => []
  | '%' :: h1 :: h2 :: rest =>
      if isHexC h1 && isHexC h2 then .inr (16 * hexVal h1 + hexVal h2) :: pctTokens rest
      else .inl '%' :: pctTokens (h1 :: h2 :: rest)
  | c :: rest => .inl c :: pctTokens rest

/-- Decode a UTF-8 byte sequence, mapping malformed sequences to the
replacement character (str decoding with errors="replace"). -/
def utf8Decode : Nat → List Nat → List Char
  | 0, _ => []
  | _, [] => []
  | fuel + 1, b :: bs =>
      if b < 0x80 then Char.ofNat b :: utf8Decode fuel bs
      else if 0xc2 ≤ b ∧ b ≤ 0xdf then
        match bs with
        | b2 :: bs2 =>
            if 0x80 ≤ b2 ∧ b2 ≤ 0xbf then
              Char.ofNat ((b - 0xc0) * 64 + (b2 - 0x80)) :: utf8Decode fuel bs2
            else Char.ofNat 0xfffd :: utf8Decode fuel bs
        | [] => [Char.ofNat 0xfffd]
      else if 0xe0 ≤ b ∧ b ≤ 0xef then
        match bs with
        | b2 :: b3 :: bs3 =>
            if (0x80 ≤ b2 ∧ b2 ≤ 0xbf) ∧ (0x80 ≤ b3 ∧ b3 ≤ 0xbf) ∧
               (b ≠ 0xe0 ∨ 0xa0 ≤ b2) ∧ (b ≠ 0xed ∨ b2 ≤ 0x9f) then
              Char.ofNat ((b - 0xe0) * 4096 + (b2 - 0x80) * 64 + (b3 - 0x80)) ::
                utf8Decode fuel bs3
            else Char.ofNat 0xfffd :: utf8Decode fuel bs
        | _ => Char.ofNat 0xfffd :: utf8Decode fuel bs
      else if 0xf0 ≤ b ∧ b ≤ 0xf4 then
        match bs with
        | b2 :: b3 :: b4 :: bs4 =>
            if (0x80 ≤ b2 ∧ b2 ≤ 0xbf) ∧ (0x80 ≤ b3 ∧ b3 ≤ 0xbf) ∧ (0x80 ≤ b4 ∧ b4 ≤ 0xbf) ∧
               (b ≠ 0xf0 ∨ 0x90 ≤ b2) ∧ (b ≠ 0xf4 ∨ b2 ≤ 0x8f) then
              Char.ofNat ((b - 0xf0) * 262144 + (b2 - 0x80) * 4096 + (b3 - 0x80) * 64 +
                (b4 - 0x80)) :: utf8Decode fuel bs4
            else Char.ofNat 0xfffd :: utf8Decode fuel bs
        | _ => Char.ofNat 0xfffd :: utf8Decode fuel bs
      else Char.ofNat 0xfffd :: utf8Decode fuel bs

/-- Flush runs of decoded bytes through the UTF-8 decoder and pass
literal characters straight through. -/
def pctAssemble : List (Sum Char Nat) → List Nat → List Char
  | [], run => utf8Decode (run.length + 1) run.reverse
  | .inl c :: rest, run => utf8Decode (run.length + 1) run.reverse ++ (c :: pctAssemble rest [])
  | .inr b :: rest, run => pctAssemble rest (b :: run)

/-- urllib.parse.unquote with UTF-8 decoding and errors="replace". -/
def unquote (s : String) : String := String.mk (pctAssemble (pctTokens s.data) [])

def splitOnSlash (cs : List Char) : List (List Char) :=
  go cs [] []
where
  go : List Char → List Char → List (List Char) → List (List Char)
    | [], acc, out => (acc.reverse :: out).reverse
    | '/' :: rest, acc, out => go rest [] (acc.reverse :: out)
    | c :: rest, acc, out => go rest (c :: acc) out

def joinSlash (parts : List (List Char)) : List Char :=
  match parts with
  | [] => []
  | p :: ps => p ++ (ps.map (fun q => '/' :: q)).flatten

/-- posixpath.normpath, translated clause by clause from CPython. -/
def normpathPy (s : String) : String :=
  let cs := s.data
  if cs = [] then "."
  else
    let slashes1 : Bool := cs.take 1 = ['/']
    let slashes : Nat :=
      if slashes1 then (if cs.take 2 = ['/', '/'] ∧ cs.take 3 ≠ ['/', '/', '/'] then 2 else 1)
      else 0
    let comps := splitOnSlash cs
    let newComps := comps.foldl (fun acc comp =>
      if comp = [] ∨ comp = ['.'] then acc
      else if comp ≠ ['.', '.'] ∨ (slashes = 0 ∧ acc = []) ∨
              (acc ≠ [] ∧ acc.headD [] = ['.', '.']) then comp :: acc
      else if acc ≠ [] then acc.tail
      else acc) ([] : List (List Char))
    let path := joinSlash newComps.reverse
    let path2 := List.replicate slashes '/' ++ path
    if path2 = [] then "." else String.mk path2

/-- _norm_posix from publish_docs.py: backslashes to slashes, normpath,
and strip a leading dot-slash. -/
def norm_posix (p : String) : String :=
  let p1 := String.mk (p.data.map (fun c => if c = '\\' then '/' else c))
  let p2 := normpathPy p1
  if strStartsWith p2 "./" then String.mk (p2.data.drop 2) else p2

/-- PurePosixPath parts: split on slashes, dropping empty and single-dot
components (pathlib's normalisation, which keeps double-dot parts). -/
def ppParts (p : String) : List (List Char) :=
  (splitOnSlash p.data).filter (fun c => c ≠ [] ∧ c ≠ ['.'])

/-- PurePosixPath(cur).parent rendered as a posix string. -/
def ppParent (p : String) : String :=
  let abs : Bool := p.data.take 1 = ['/']
  let parts := ppParts p
  let parents := parts.take (parts.length - 1)
  if abs then String.mk ('/' :: joinSlash parents)
  else if parents = [] then "." else String.mk (joinSlash parents)

/-- (PurePosixPath(par) / rel).as_posix() for a relative rel. -/
def ppJoin (par rel : String) : String :=
  let abs : Bool := par.data.take 1 = ['/']
  let parts := ppParts par ++ ppParts rel
  if abs then String.mk ('/' :: joinSlash parts)
  else if parts = [] then "." else String.mk (joinSlash parts)

/-- The base-path computation inside _link_resolver: path portion of the
configured base URL, trailing slashes stripped, a trailing /rest/api
suffix removed, and a leading slash ensured when non-empty. -/
def base_path_of (base_url : String) : String :=
  let bp0 := String.mk ((urlparse base_url).path.data.reverse.dropWhile (fun c => c = '/')).reverse
  let bp1 := if strEndsWith bp0 "/rest/api" then strDropRight bp0 9 else bp0
  if bp1 ≠ "" ∧ ¬strStartsWith bp1 "/" then "/" ++ bp1 else bp1

/-- The target-path computation of _link_resolver: reject
scheme-qualified and fragment-only links, percent-decode the parsed
path, strip leading slashes, require a .md suffix case-insensitively,
and resolve the path against the current document's directory to a
normalized repository path. -/
def resolved_target (href : String) (cur0 : String) : Option String :=
  let u := urlparse href
  if u.scheme ≠ "" ∨ strStartsWith href "#" then none
  else
    let path0 := unquote u.path
    let path1 := if strStartsWith path0 "/" then
        String.mk (path0.data.dropWhile (fun c => c = '/')) else path0
    if ¬strEndsWith (lowerStr path1) ".md" then none
    else some (norm_posix (ppJoin (ppParent (norm_posix cur0)) path1))

/-- DocsPublisher._link_resolver, with the publisher state it reads
(cfg.base_url and path_to_page) passed explicitly: look the resolved
target up in the path index and build a context-relative view URL from
the base address's path portion, preserving the link's fragment. -/
def link_resolver (base_url : String) (path_to_page : Dict)
    (href : String) (current_path : Option String) : Option String :=
  match current_path with
  | none => none
  | some cur0 =>
      if cur0 = "" then none
      else
        match resolved_target href cur0 with
        | none => none
        | some target =>
            match pyOptStr (dictGet path_to_page target) with
            | none => none
            | some pid =>
                let url := base_path_of base_url ++ "/pages/viewpage.action?pageId=" ++ pid
                some (if (urlparse href).fragment ≠ "" then
                    url ++ "#" ++ (urlparse href).fragment else url)

example :
    link_resolver "https://conf.company.ru/wiki" [("docs/a/b.md", "123")] "./b.md#sec"
      (some "docs/a/c.md") = some "/wiki/pages/viewpage.action?pageId=123#sec" := by decide
example :
    link_resolver "https://conf.company.ru/wiki/rest/api" [("docs/a/b.md", "123")] "b.md"
      (some "docs/a/c.md") = some "/wiki/pages/viewpage.action?pageId=123" := by decide
example :
    link_resolver "http://localhost:8090" [("docs/a/b.md", "123")] "https://example.com/x"
      (some "docs/a/c.md") = none := by decide
example :
    link_resolver "http://localhost:8090" [("docs/a/b.md", "123")] "#sec"
      (some "docs/a/c.md") = none := by decide
example :
    link_resolver "http://localhost:8090" [("docs/a/b.md", "123")] "file.txt"
      (some "docs/a/c.md") = none := by decide

/-! The Confluence store and the reconciliation engine
(DocsPublisher.ensure_page, publish_entry in publish_docs.py).  Remote
state is explicit; the client operations mirror confl_client.py as the
publisher observes them: create/update fail with a message containing
"A page with this title already exists" on a space-wide title
collision, label addition normalises and unions, label deletion and
property upserts are total (deleting a missing label is treated as
success by the client). -/

/-- The payload written by write_source_meta into both content
properties. -/
structure SrcMeta where
  key : String
  title : String
  src_hash : String
  meta_labels : List String
deriving DecidableEq

structure ConfPage where
  pid : String
  title : String
  parentId : String
  storage : String
  version : Nat
  labels : List String
  props : List (String × SrcMeta)
deriving DecidableEq

structure ConfState where
  pages : List ConfPage
  nextId : Nat
deriving DecidableEq

def pageIds (c : ConfState) : List String := c.pages.map (fun p => p.pid)

def findPage (c : ConfState) (pid : String) : Option ConfPage :=
  c.pages.find? (fun p => p.pid = pid)

def titleTaken (c : ConfState) (t : String) : Bool := c.pages.any (fun p => p.title = t)

def titleTakenOther (c : ConfState) (pid t : String) : Bool :=
  c.pages.any (fun p => p.pid ≠ pid ∧ p.title = t)

/-- Confluence.create_page: fails when the title is already taken in the
space, otherwise appends a fresh page and returns its id. -/
def create_page (c : ConfState) (parentId title storage : String) :
    Except String (String × ConfState) :=
  if titleTaken c title then .error "Create page failed: A page with this title already exists"
  else
    let pid := "p" ++ Nat.repr c.nextId
    .ok (pid, { pages := c.pages ++ [⟨pid, title, parentId, storage, 1, [], []⟩],
                nextId := c.nextId + 1 })

/-- Confluence.update_page: fails when another page holds the title,
otherwise rewrites title, parent and body and bumps the version. -/
def update_page (c : ConfState) (pid parentId title storage : String) :
    Except String ConfState :=
  match findPage c pid with
  | none => .error ("Update page failed: no such page " ++ pid)
  | some _ =>
      if titleTakenOther c pid title then
        .error "Update page failed: A page with this title already exists"
      else
        .ok { c with pages := c.pages.map (fun q =>
          if q.pid = pid then
            { q with title := title, parentId := parentId, storage := storage,
                     version := q.version + 1 }
          else q) }

def unionLabels (cur new : List String) : List String :=
  new.foldl (fun acc l => if acc.contains l then acc else acc ++ [l]) cur

/-- Confluence.add_labels: strip, lowercase, drop empties, then add the
labels not already present. -/
def add_labels (c : ConfState) (pid : String) (labels : List String) : ConfState :=
  let ls := (labels.map (fun l => lowerStr (pyStrip l))).filter (fun l => l ≠ "")
  { c with pages := c.pages.map (fun p =>
      if p.pid = pid then { p with labels := unionLabels p.labels ls } else p) }

/-- Confluence.delete_label (a missing label or page is not an error). -/
def delete_label (c : ConfState) (pid lb : String) : ConfState :=
  { c with pages := c.pages.map (fun p =>
      if p.pid = pid then { p with labels := p.labels.filter (fun l => l ≠ lb) } else p) }

def propSet (props : List (String × SrcMeta)) (k : String) (v : SrcMeta) :
    List (String × SrcMeta) :=
  match props with
  | [] => [(k, v)]
  | (k', v') :: rest => if k' = k then (k', v) :: rest else (k', v') :: propSet rest k v

/-- Confluence.put_property: create-or-update upsert of a content
property. -/
def put_property (c : ConfState) (pid k : String) (v : SrcMeta) : ConfState :=
  { c with pages := c.pages.map (fun p =>
      if p.pid = pid then { p with props := propSet p.props k v } else p) }

/-- Confluence.find_page_by_title: first page with that exact title. -/
def find_page_by_title (c : ConfState) (t : String) : Option ConfPage :=
  c.pages.find? (fun p => p.title = t)

/-- Ancestor id chain of a parent pointer (fuelled against cycles; real
Confluence ancestor chains are finite). -/
def ancestorIds (c : ConfState) : Nat → String → List String
  | 0, _ => []
  | fuel + 1, pid =>
      pid :: (match findPage c pid with
        | some p => ancestorIds c fuel p.parentId
        | none => [])

def pageAncestors (c : ConfState) (p : ConfPage) : List String :=
  ancestorIds c (c.pages.length + 1) p.parentId

/-- The publisher configuration fields ensure_page reads. -/
structure PubCfg where
  space : String
  docs_root_id : String
  managed_label : String
  adopt_existing_by_title_under_root : Bool
  migrate_legacy_doc_labels : Bool
deriving DecidableEq

/-- In-memory indexes of DocsPublisher plus the remote state. -/
structure PubState where
  conf : ConfState
  key_to_page : Dict
  label_to_page : Dict
  path_to_page : Dict
deriving DecidableEq

/-- DocsPublisher._adopt_by_title_under_root. -/
def adopt_by_title_under_root (cfg : PubCfg) (c : ConfState) (title : String) : Option String :=
  if ¬cfg.adopt_existing_by_title_under_root then none
  else match find_page_by_title c title with
    | none => none
    | some p =>
        if (pageAncestors c p).contains cfg.docs_root_id then some p.pid else none

/-- is_title_exists from ensure_page. -/
def is_title_exists (err : String) : Bool :=
  strContains err "A page with this title already exists" || strContains err "already exists"

/-- title_candidates from ensure_page: stripped base title when
non-empty; the prefixed variant when a truthy collision prefix with a
non-empty strip was supplied and the base does not already start with
it; always the hash-suffixed variant; deduplicated keeping order. -/
def title_candidates (key : String) (collision_pfx : Option String) (base0 : String) :
    List String :=
  let base := pyStrip base0
  let out1 : List String := if base ≠ "" then [base] else []
  let out2 : List String := out1 ++
    (match collision_pfx with
     | some cp =>
         if cp ≠ "" then
           let pfx := pyStrip cp
           if pfx ≠ "" ∧ ¬strStartsWith base pfx then [pfx ++ " · " ++ base] else []
         else []
     | none => [])
  let short := strTake (sha1hex key) 6
  dedupKeepOrder (out2 ++ [base ++ " [" ++ short ++ "]"])

/-- The candidate loop of try_update. -/
def try_update_go (cfg : PubCfg) (pid parent_id storage : String) :
    List String → Option String → ConfState → Except String (String × ConfState)
  | [], lastErr, _ => .error (lastErr.getD "Update failed (unknown)")
  | t :: ts, _, c =>
      match update_page c pid parent_id t storage with
      | .ok c' => .ok (t, c')
      | .error e => if is_title_exists e then try_update_go cfg pid parent_id storage ts (some e) c
                    else .error e

/-- try_update from ensure_page: iterate the title candidates, skipping
title collisions, returning the title actually used. -/
def try_update (cfg : PubCfg) (key : String) (collision_pfx : Option String)
    (title pid parent_id storage : String) (c : ConfState) :
    Except String (String × ConfState) :=
  try_update_go cfg pid parent_id storage (title_candidates key collision_pfx title) none c

/-- The candidate loop of try_create; on a title collision it attempts
adoption-by-title of the colliding candidate before moving on. -/
def try_create_go (cfg : PubCfg) (key : String) (collision_pfx : Option String)
    (title parent_id storage : String) :
    List String → Option String → ConfState → Except String ((String × String) × ConfState)
  | [], lastErr, _ => .error (lastErr.getD "Create failed (unknown)")
  | t :: ts, _, c =>
      match create_page c parent_id t storage with
      | .ok (pid, c') => .ok ((pid, t), c')
      | .error e =>
          if is_title_exists e then
            match pyOptStr (adopt_by_title_under_root cfg c t) with
            | some aid =>
                match try_update cfg key collision_pfx title aid parent_id storage c with
                | .ok (used, c') => .ok ((aid, used), c')
                | .error e2 => .error e2
            | none => try_create_go cfg key collision_pfx title parent_id storage ts (some e) c
          else .error e

def try_create (cfg : PubCfg) (key : String) (collision_pfx : Option String)
    (title parent_id storage : String) (c : ConfState) :
    Except String ((String × String) × ConfState) :=
  try_create_go cfg key collision_pfx title parent_id storage
    (title_candidates key collision_pfx title) none c

/-- VISIBLE_META_LABELS cleanup plus both property writes
(write_source_meta in ensure_page). -/
def write_source_meta (cfg : PubCfg) (key pid used_title : String)
    (meta_labels : List String) (c : ConfState) : ConfState :=
  let payload : SrcMeta :=
    { key := key, title := used_title, src_hash := strTake (sha1hex key) 12,
      meta_labels := ((meta_labels.map (fun l => lowerStr (pyStrip l))).filter (fun l => l ≠ "")) }
  let c1 := put_property c pid PROPERTY_KEY payload
  let c2 := put_property c1 pid "source" payload
  if cfg.migrate_legacy_doc_labels then
    delete_label (delete_label (delete_label c2 pid "md") pid "dir") pid "section"
  else c2

/-- DocsPublisher.ensure_page: the four-branch lookup chain (primary
property index, legacy label index, title adoption under the root,
create), each followed by label/property post-writes. -/
def ensure_page (cfg : PubCfg) (key title parent_id storage : String)
    (extra_labels : List String) (page_labels : List String)
    (collision_pfx : Option String) (st : PubState) : Except String (String × PubState) :=
  match pyOptStr (dictGet st.key_to_page key) with
  | some pid =>
      match try_update cfg key collision_pfx title pid parent_id storage st.conf with
      | .error e => .error e
      | .ok (used, c1) =>
          let c2 := add_labels c1 pid (cfg.managed_label :: page_labels)
          let c3 := write_source_meta cfg key pid used extra_labels c2
          .ok (pid, { st with conf := c3 })
  | none =>
  match pyOptStr (dictGet st.label_to_page (label_for key)) with
  | some lid =>
      match try_update cfg key collision_pfx title lid parent_id storage st.conf with
      | .error e => .error e
      | .ok (used, c1) =>
          let c2 := add_labels c1 lid (cfg.managed_label :: page_labels)
          let c3 := write_source_meta cfg key lid used extra_labels c2
          let c4 := delete_label c3 lid (label_for key)
          .ok (lid, { st with conf := c4, key_to_page := dictSet st.key_to_page key lid })
  | none =>
  match pyOptStr (adopt_by_title_under_root cfg st.conf title) with
  | some aid =>
      match try_update cfg key collision_pfx title aid parent_id storage st.conf with
      | .error e => .error e
      | .ok (used, c1) =>
          let c2 := add_labels c1 aid (cfg.managed_label :: page_labels)
          let c3 := write_source_meta cfg key aid used extra_labels c2
          let c4 := delete_label c3 aid (label_for key)
          .ok (aid, { st with conf := c4, key_to_page := dictSet st.key_to_page key aid })
  | none =>
      match try_create cfg key collision_pfx title parent_id storage st.conf with
      | .error e => .error e
      | .ok ((pid, used), c1) =>
          let c2 := add_labels c1 pid (cfg.managed_label :: page_labels)
          let c3 := write_source_meta cfg key pid used extra_labels c2
          .ok (pid, { st with conf := c3, key_to_page := dictSet st.key_to_page key pid })

/-- A publish unit as publish_entry consumes it (Entry in
publish_docs.py), with the conversion result abstracted: publish_entry
only feeds the converted storage and the extracted tag labels into
ensure_page. -/
structure EntryM where
  current_path : String
  md_text : String
  title : String
  key : String
  parent_id : String
  collision_pfx : String
  rename_from_key : Option String
  rename_from_path : Option String
deriving DecidableEq

/-- The rename pre-claim step at the top of publish_entry: when the
entry records a rename from a different key, the old key resolves to a
page and the new key is not yet claimed, pre-claim that page id under
the new key. -/
def rename_preclaim (e : EntryM) (st : PubState) : PubState :=
  match e.rename_from_key with
  | some old_key =>
      if old_key ≠ "" ∧ old_key ≠ e.key then
        match pyOptStr (dictGet st.key_to_page old_key) with
        | some old_pid =>
            if dictGet st.key_to_page e.key = none then
              { st with key_to_page := dictSet st.key_to_page e.key old_pid }
            else st
        | none => st
      else st
  | none => st

/-- The index bookkeeping after a successful publish in publish_entry:
record the path mapping, then drop the renamed-away path and, when the
old key still maps to the page just published, the old key. -/
def rename_cleanup (e : EntryM) (pid : String) (s1 : PubState) : PubState :=
  let s2 := { s1 with path_to_page := dictSet s1.path_to_page e.current_path pid }
  let s3 := match e.rename_from_path with
    | some op => if op ≠ "" then { s2 with path_to_page := dictPop s2.path_to_page op } else s2
    | none => s2
  match e.rename_from_key with
  | some old_key =>
      if old_key ≠ "" ∧ old_key ≠ e.key then
        if dictGet s3.key_to_page old_key = some pid then
          { s3 with key_to_page := dictPop s3.key_to_page old_key }
        else s3
      else s3
  | none => s3

/-- publish_entry from DocsPublisher.publish_all: pre-claim the renamed
page under the new key, ensure the page, then run the index cleanup.
`conv` abstracts conv.convert plus extract_tag_labels: it returns the
storage markup and the page labels for the document. -/
def publish_entry (cfg : PubCfg) (conv : String → String → String × List String)
    (e : EntryM) (st : PubState) : Except String (String × PubState) :=
  let st1 := rename_preclaim e st
  let (storage, plabels) := conv e.md_text e.current_path
  match ensure_page cfg e.key e.title e.parent_id storage ["md"] plabels
      (some e.collision_pfx) st1 with
  | .error err => .error err
  | .ok (pid, s1) => .ok (pid, rename_cleanup e pid s1)

/-- N successive republishes of the same document through ensure_page
(the per-key iteration behind the idempotence property). -/
def republishN (cfg : PubCfg) (key title parent_id storage : String)
    (extra_labels page_labels : List String) (collision_pfx : Option String) :
    Nat → PubState → Except String (List String × PubState)
  | 0, st => .ok ([], st)
  | n + 1, st =>
      match ensure_page cfg key title parent_id storage extra_labels page_labels
          collision_pfx st with
      | .error e => .error e
      | .ok (pid, st') =>
          match republishN cfg key title parent_id storage extra_labels page_labels
              collision_pfx n st' with
          | .error e => .error e
          | .ok (pids, st'') => .ok (pid :: pids, st'')

/-- Configuration used by the unit-test style checks below. -/
def cfgT : PubCfg :=
  { space := "DOC", docs_root_id := "100", managed_label := "managed-docs",
    adopt_existing_by_title_under_root := true, migrate_legacy_doc_labels := true }

def stEmpty : PubState := { conf := { pages := [], nextId := 0 }, key_to_page := [],
                            label_to_page := [], path_to_page := [] }

example :
    (ensure_page cfgT "file:docs/a.md" "Hello" "100" "<p>x</p>" ["md"] [] (some "DOCS")
        { stEmpty with conf := { pages := [⟨"9", "Hello", "0", "", 1, [], []⟩], nextId := 0 } }
      ).toOption.map (fun r => (r.1, (findPage r.2.conf "p0").map (fun p => p.title))) =
    some ("p0", some "DOCS · Hello") := by decide

example :
    (ensure_page cfgT "file:docs/a.md" "Hello" "100" "<p>x</p>" ["md"] [] (some "DOCS")
        { stEmpty with
          conf := { pages := [⟨"777", "Old", "100", "", 1, [], []⟩], nextId := 0 },
          key_to_page := [("file:docs/a.md", "777")] }
      ).toOption.map (fun r => (r.1, (findPage r.2.conf "777").map (fun p => p.storage))) =
    some ("777", some "<p>x</p>") := by decide

example :
    (ensure_page cfgT "file:docs/a.md" "Hello" "100" "<p>x</p>" ["md"] [] (some "DOCS")
        { stEmpty with
          conf := { pages := [⟨"777", "Old", "100", "", 1,
            [label_for "file:docs/a.md"], []⟩], nextId := 0 },
          label_to_page := [(label_for "file:docs/a.md", "777")] }
      ).toOption.map (fun r =>
        (r.1, dictGet r.2.key_to_page "file:docs/a.md",
         (findPage r.2.conf "777").map (fun p => p.labels.contains (label_for "file:docs/a.md")))) =
    some ("777", some "777", some false) := by decide

/-- The state used to refute the claim that the last branch of the
lookup chain always creates a page: an off-root page owns the bare
title and an on-root page owns the prefixed candidate, so create
collides twice and the second collision is adopted. -/
def stC4 : PubState :=
  { stEmpty with conf :=
      { pages := [⟨"10", "T", "0", "", 1, [], []⟩, ⟨"11", "DOCS · T", "100", "", 1, [], []⟩],
        nextId := 7 } }

example :
    (ensure_page cfgT "file:docs/d/s/t.md" "T" "100" "<p>x</p>" ["md"] [] (some "DOCS")
        stC4).toOption.map (fun r => (r.1, pageIds r.2.conf, r.2.conf.nextId)) =
    some ("11", ["10", "11"], 7) := by decide

/-! Helper lemmas. -/

theorem pyOptStr_eq_some {o : Option String} {v : String} (h : pyOptStr o = some v) :
    o = some v ∧ v ≠ "" := by
  cases o with
  | none => exact absurd h (by simp [pyOptStr])
  | some s =>
      by_cases hs : s = ""
      · simp [pyOptStr, hs] at h
      · simp only [pyOptStr, if_neg hs, Option.some.injEq] at h
        subst h
        exact ⟨rfl, hs⟩

theorem dictGet_set_self (d : Dict) (k v : String) : dictGet (dictSet d k v) k = some v := by
  induction d with
  | nil => simp [dictSet, dictGet]
  | cons kv rest ih =>
      by_cases h : kv.1 = k
      · simp [dictSet, dictGet, h]
      · simp [dictSet, dictGet, h, ih]

theorem dictGet_set_other (d : Dict) (k v k' : String) (h : k' ≠ k) :
    dictGet (dictSet d k v) k' = dictGet d k' := by
  induction d with
  | nil => simp [dictSet, dictGet, Ne.symm h]
  | cons kv rest ih =>
      by_cases h1 : kv.1 = k
      · simp [dictSet, dictGet, h1, Ne.symm h]
      · by_cases h2 : kv.1 = k'
        · simp [dictSet, dictGet, h1, h2, h]
        · simp [dictSet, dictGet, h1, h2, ih]

theorem dictGet_pop_self (d : Dict) (k : String) : dictGet (dictPop d k) k = none := by
  induction d with
  | nil => simp [dictPop, dictGet]
  | cons kv rest ih =>
      by_cases h : kv.1 = k
      · simpa [dictPop, List.filter_cons, h] using ih
      · simpa [dictPop, dictGet, List.filter_cons, h] using ih

theorem dictGet_pop_other (d : Dict) (k k' : String) (h : k' ≠ k) :
    dictGet (dictPop d k) k' = dictGet d k' := by
  induction d with
  | nil => simp [dictPop, dictGet]
  | cons kv rest ih =>
      by_cases h1 : kv.1 = k
      · simpa [dictPop, dictGet, List.filter_cons, h1, Ne.symm h] using ih
      · by_cases h2 : kv.1 = k'
        · simp [dictPop, dictGet, List.filter_cons, h1, h2, h]
        · simpa [dictPop, dictGet, List.filter_cons, h1, h2] using ih

theorem map_pid_pages (l : List ConfPage) (f : ConfPage → ConfPage)
    (hf : ∀ p, (f p).pid = p.pid) :
    (l.map f).map (fun p => p.pid) = l.map (fun p => p.pid) := by
  induction l with
  | nil => simp
  | cons p rest ih => simp [hf, ih]

/-- Whether the page `pid` currently carries label `lb`. -/
def hasLabel (c : ConfState) (pid lb : String) : Bool :=
  c.pages.any (fun p => if p.pid = pid then p.labels.contains lb else false)

theorem contains_filter_ne (l : List String) (a : String) :
    (l.filter (fun x => x ≠ a)).contains a = false := by
  induction l with
  | nil => simp
  | cons x xs ih =>
      by_cases h : x = a
      · simp [List.filter_cons, h, ih]
      · simp [List.filter_cons, h, List.contains_cons, ih, Ne.symm h]

theorem create_page_ok {c : ConfState} {par t s pid : String} {c' : ConfState}
    (h : create_page c par t s = .ok (pid, c')) :
    pageIds c' = pageIds c ++ [pid] ∧ c'.nextId = c.nextId + 1 := by
  by_cases ht : titleTaken c t
  · simp [create_page, ht] at h
  · simp only [create_page, ht, if_false, Bool.false_eq_true] at h
    obtain ⟨hp, hc⟩ := Prod.mk.injEq .. ▸ Except.ok.injEq .. ▸ h
    subst hp
    subst hc
    simp [pageIds]

theorem update_page_ok {c : ConfState} {pid par t s : String} {c' : ConfState}
    (h : update_page c pid par t s = .ok c') :
    pageIds c' = pageIds c ∧ c'.nextId = c.nextId := by
  cases hf : findPage c pid with
  | none => simp [update_page, hf] at h
  | some p =>
      by_cases ht : titleTakenOther c pid t
      · simp [update_page, hf, ht] at h
      · simp only [update_page, hf, ht, if_false, Bool.false_eq_true, Except.ok.injEq] at h
        subst h
        exact ⟨map_pid_pages _ _ (fun q => by by_cases hq : q.pid = pid <;> simp [hq]), rfl⟩

theorem add_labels_ids (c : ConfState) (pid : String) (ls : List String) :
    pageIds (add_labels c pid ls) = pageIds c ∧ (add_labels c pid ls).nextId = c.nextId :=
  ⟨map_pid_pages _ _ (fun q => by by_cases hq : q.pid = pid <;> simp [hq]), rfl⟩

theorem delete_label_ids (c : ConfState) (pid lb : String) :
    pageIds (delete_label c pid lb) = pageIds c ∧ (delete_label c pid lb).nextId = c.nextId :=
  ⟨map_pid_pages _ _ (fun q => by by_cases hq : q.pid = pid <;> simp [hq]), rfl⟩

theorem put_property_ids (c : ConfState) (pid k : String) (v : SrcMeta) :
    pageIds (put_property c pid k v) = pageIds c ∧ (put_property c pid k v).nextId = c.nextId :=
  ⟨map_pid_pages _ _ (fun q => by by_cases hq : q.pid = pid <;> simp [hq]), rfl⟩

theorem write_source_meta_ids (cfg : PubCfg) (key pid used : String) (ml : List String)
    (c : ConfState) :
    pageIds (write_source_meta cfg key pid used ml c) = pageIds c ∧
    (write_source_meta cfg key pid used ml c).nextId = c.nextId := by
  unfold write_source_meta
  by_cases hm : cfg.migrate_legacy_doc_labels <;>
    simp [hm, (delete_label_ids ..).1, (delete_label_ids ..).2,
      (put_property_ids ..).1, (put_property_ids ..).2]

theorem delete_label_kills (c : ConfState) (pid lb : String) :
    hasLabel (delete_label c pid lb) pid lb = false := by
  unfold hasLabel delete_label
  simp only [List.any_map, List.any_eq_false]
  intro p _
  by_cases hq : p.pid = pid
  · simp [Function.comp, hq, contains_filter_ne]
  · simp [Function.comp, hq]

theorem adopt_mem {cfg : PubCfg} {c : ConfState} {t aid : String}
    (h : adopt_by_title_under_root cfg c t = some aid) : aid ∈ pageIds c := by
  unfold adopt_by_title_under_root at h
  split at h
  · exact absurd h (by simp)
  · cases hp : find_page_by_title c t with
    | none => rw [hp] at h; exact absurd h (by simp)
    | some p =>
        rw [hp] at h
        have h2 : (if (pageAncestors c p).contains cfg.docs_root_id = true then some p.pid
            else none) = some aid := h
        cases hb : (pageAncestors c p).contains cfg.docs_root_id with
        | false =>
            rw [if_neg (by rw [hb]; exact Bool.false_ne_true)] at h2
            exact absurd h2 (by simp)
        | true =>
            rw [if_pos hb] at h2
            exact (Option.some.inj h2) ▸ List.mem_map_of_mem _ (List.mem_of_find?_eq_some hp)

theorem try_update_go_ok (cfg : PubCfg) (pid par s : String) :
    ∀ (ts : List String) (le : Option String) (c : ConfState) (used : String) (c' : ConfState),
      try_update_go cfg pid par s ts le c = .ok (used, c') →
      pageIds c' = pageIds c ∧ c'.nextId = c.nextId := by
  intro ts
  induction ts with
  | nil => intro le c used c' h; simp [try_update_go] at h
  | cons t ts ih =>
      intro le c used c' h
      simp only [try_update_go] at h
      cases hu : update_page c pid par t s with
      | ok c1 =>
          rw [hu] at h
          simp only [Except.ok.injEq, Prod.mk.injEq] at h
          obtain ⟨-, rfl⟩ := h
          exact update_page_ok hu
      | error e =>
          rw [hu] at h
          by_cases he : is_title_exists e
          · simp only [he, if_true] at h
            exact ih _ _ _ _ h
          · simp [he] at h

theorem try_update_ok {cfg : PubCfg} {key : String} {cp : Option String}
    {title pid par s : String} {c : ConfState} {used : String} {c' : ConfState}
    (h : try_update cfg key cp title pid par s c = .ok (used, c')) :
    pageIds c' = pageIds c ∧ c'.nextId = c.nextId :=
  try_update_go_ok cfg pid par s _ _ _ _ _ h

theorem try_create_go_ok (cfg : PubCfg) (key : String) (cp : Option String)
    (title par s : String) :
    ∀ (ts : List String) (le : Option String) (c : ConfState) (pid used : String)
      (c' : ConfState),
      try_create_go cfg key cp title par s ts le c = .ok ((pid, used), c') →
      (pageIds c' = pageIds c ++ [pid] ∧ c'.nextId = c.nextId + 1) ∨
      (pid ∈ pageIds c ∧ pageIds c' = pageIds c ∧ c'.nextId = c.nextId) := by
  intro ts
  induction ts with
  | nil => intro le c pid used c' h; simp [try_create_go] at h
  | cons t ts ih =>
      intro le c pid used c' h
      simp only [try_create_go] at h
      cases hc : create_page c par t s with
      | ok r =>
          rw [hc] at h
          simp only [Except.ok.injEq, Prod.mk.injEq] at h
          obtain ⟨⟨rfl, -⟩, rfl⟩ := h
          exact Or.inl (create_page_ok (by rw [hc]))
      | error e =>
          rw [hc] at h
          by_cases he : is_title_exists e
          · simp only [he, if_true] at h
            cases hA : pyOptStr (adopt_by_title_under_root cfg c t) with
            | some aid =>
                rw [hA] at h
                have h2 : (match try_update cfg key cp title aid par s c with
                    | Except.ok (used, c') => Except.ok ((aid, used), c')
                    | Except.error e2 => (Except.error e2 : Except String ((String × String) × ConfState))) =
                    Except.ok ((pid, used), c') := h
                cases htu : try_update cfg key cp title aid par s c with
                | ok r2 =>
                    rw [htu] at h2
                    obtain ⟨u2, c2⟩ := r2
                    simp only [Except.ok.injEq, Prod.mk.injEq] at h2
                    obtain ⟨⟨rfl, -⟩, rfl⟩ := h2
                    exact Or.inr ⟨adopt_mem (pyOptStr_eq_some hA).1, (try_update_ok htu).1,
                      (try_update_ok htu).2⟩
                | error e2 => rw [htu] at h2; simp at h2
            | none =>
                rw [hA] at h
                exact ih _ _ _ _ _ h
          · simp [he] at h

theorem ensure_page_primary_eq (cfg : PubCfg) (key title par s : String)
    (el pl : List String) (cp : Option String) (st : PubState) (P : String)
    (h1 : pyOptStr (dictGet st.key_to_page key) = some P) :
    ensure_page cfg key title par s el pl cp st =
      match try_update cfg key cp title P par s st.conf with
      | .error e => .error e
      | .ok (used, c1) =>
          .ok (P, { st with conf := write_source_meta cfg key P used el (add_labels c1 P (cfg.managed_label :: pl)) }) := by
  unfold ensure_page
  rw [h1]

theorem ensure_page_legacy_eq (cfg : PubCfg) (key title par s : String)
    (el pl : List String) (cp : Option String) (st : PubState) (L : String)
    (h1 : pyOptStr (dictGet st.key_to_page key) = none)
    (h2 : pyOptStr (dictGet st.label_to_page (label_for key)) = some L) :
    ensure_page cfg key title par s el pl cp st =
      match try_update cfg key cp title L par s st.conf with
      | .error e => .error e
      | .ok (used, c1) =>
          .ok (L, { st with
              conf := delete_label (write_source_meta cfg key L used el (add_labels c1 L (cfg.managed_label :: pl))) L (label_for key),
              key_to_page := dictSet st.key_to_page key L }) := by
  unfold ensure_page
  rw [h1, h2]

theorem ensure_page_adopt_eq (cfg : PubCfg) (key title par s : String)
    (el pl : List String) (cp : Option String) (st : PubState) (A : String)
    (h1 : pyOptStr (dictGet st.key_to_page key) = none)
    (h2 : pyOptStr (dictGet st.label_to_page (label_for key)) = none)
    (h3 : pyOptStr (adopt_by_title_under_root cfg st.conf title) = some A) :
    ensure_page cfg key title par s el pl cp st =
      match try_update cfg key cp title A par s st.conf with
      | .error e => .error e
      | .ok (used, c1) =>
          .ok (A, { st with
              conf := delete_label (write_source_meta cfg key A used el (add_labels c1 A (cfg.managed_label :: pl))) A (label_for key),
              key_to_page := dictSet st.key_to_page key A }) := by
  unfold ensure_page
  rw [h1, h2, h3]

theorem ensure_page_create_eq (cfg : PubCfg) (key title par s : String)
    (el pl : List String) (cp : Option String) (st : PubState)
    (h1 : pyOptStr (dictGet st.key_to_page key) = none)
    (h2 : pyOptStr (dictGet st.label_to_page (label_for key)) = none)
    (h3 : pyOptStr (adopt_by_title_under_root cfg st.conf title) = none) :
    ensure_page cfg key title par s el pl cp st =
      match try_create cfg key cp title par s st.conf with
      | .error e => .error e
      | .ok ((pid, used), c1) =>
          .ok (pid, { st with
              conf := write_source_meta cfg key pid used el (add_labels c1 pid (cfg.managed_label :: pl)),
              key_to_page := dictSet st.key_to_page key pid }) := by
  unfold ensure_page
  rw [h1, h2, h3]

theorem ensure_primary_full {cfg : PubCfg} {key title par s : String}
    {el pl : List String} {cp : Option String} {st : PubState} {P : String}
    {r : String × PubState}
    (h1 : pyOptStr (dictGet st.key_to_page key) = some P)
    (h : ensure_page cfg key title par s el pl cp st = .ok r) :
    r.1 = P ∧ r.2.key_to_page = st.key_to_page ∧ r.2.label_to_page = st.label_to_page ∧
    r.2.path_to_page = st.path_to_page ∧
    pageIds r.2.conf = pageIds st.conf ∧ r.2.conf.nextId = st.conf.nextId := by
  rw [ensure_page_primary_eq cfg key title par s el pl cp st P h1] at h
  cases htu : try_update cfg key cp title P par s st.conf with
  | error e => rw [htu] at h; simp at h
  | ok uc =>
      rw [htu] at h
      obtain ⟨used, c1⟩ := uc
      injection h with h'
      subst h'
      refine ⟨rfl, rfl, rfl, rfl, ?_, ?_⟩
      · rw [(write_source_meta_ids ..).1, (add_labels_ids ..).1]
        exact (try_update_ok htu).1
      · rw [(write_source_meta_ids ..).2, (add_labels_ids ..).2]
        exact (try_update_ok htu).2

/-- C10: whenever ensure_page returns successfully with a page id, the
in-memory primary index key_to_page maps the key to that page id at
return, in all four branches of the lookup chain, so a subsequent call
with the same key finds it in the primary index. -/
theorem c10_index_consistency (cfg : PubCfg) (key title par s : String)
    (el pl : List String) (cp : Option String) (st : PubState) (r : String × PubState)
    (h : ensure_page cfg key title par s el pl cp st = .ok r) :
    dictGet r.2.key_to_page key = some r.1 := by
  cases h1 : pyOptStr (dictGet st.key_to_page key) with
  | some P =>
      obtain ⟨hP, hk, -, -, -, -⟩ := ensure_primary_full h1 h
      rw [hk, hP]
      exact (pyOptStr_eq_some h1).1
  | none =>
      cases h2 : pyOptStr (dictGet st.label_to_page (label_for key)) with
      | some L =>
          rw [ensure_page_legacy_eq cfg key title par s el pl cp st L h1 h2] at h
          cases htu : try_update cfg key cp title L par s st.conf with
          | error e => rw [htu] at h; simp at h
          | ok uc =>
              rw [htu] at h
              obtain ⟨used, c1⟩ := uc
              injection h with h'
              subst h'
              exact dictGet_set_self ..
      | none =>
          cases h3 : pyOptStr (adopt_by_title_under_root cfg st.conf title) with
          | some A =>
              rw [ensure_page_adopt_eq cfg key title par s el pl cp st A h1 h2 h3] at h
              cases htu : try_update cfg key cp title A par s st.conf with
              | error e => rw [htu] at h; simp at h
              | ok uc =>
                  rw [htu] at h
                  obtain ⟨used, c1⟩ := uc
                  injection h with h'
                  subst h'
                  exact dictGet_set_self ..
          | none =>
              rw [ensure_page_create_eq cfg key title par s el pl cp st h1 h2 h3] at h
              cases htc : try_create cfg key cp title par s st.conf with
              | error e => rw [htc] at h; simp at h
              | ok uc =>
                  rw [htc] at h
                  obtain ⟨⟨pid, used⟩, c1⟩ := uc
                  injection h with h'
                  subst h'
                  exact dictGet_set_self ..

/-- C1: publishing is idempotent per key.  If the primary key-to-page
index maps the key to page id P (as it does after any successful
ensure_page call for that key, by the index-consistency invariant),
then N further republishes of the same document all return P, update
that page rather than creating one (the set of remote page ids is
unchanged), and leave the key mapped to P. -/
theorem c1_idempotent_republish (cfg : PubCfg) (key title par s : String)
    (el pl : List String) (cp : Option String) (P : String) :
    ∀ (n : Nat) (st : PubState) (r : List String × PubState),
      pyOptStr (dictGet st.key_to_page key) = some P →
      republishN cfg key title par s el pl cp n st = .ok r →
      r.1.all (fun x => x == P) = true ∧ pageIds r.2.conf = pageIds st.conf ∧
      pyOptStr (dictGet r.2.key_to_page key) = some P := by
  intro n
  induction n with
  | zero =>
      intro st r h1 h
      simp only [republishN] at h
      injection h with h'
      subst h'
      exact ⟨rfl, rfl, h1⟩
  | succ n ih =>
      intro st r h1 h
      simp only [republishN] at h
      cases he : ensure_page cfg key title par s el pl cp st with
      | error e => rw [he] at h; simp at h
      | ok rc =>
          rw [he] at h
          obtain ⟨pid, st1⟩ := rc
          have hfull := ensure_primary_full h1 he
          have h2 : (match republishN cfg key title par s el pl cp n st1 with
              | Except.error e => (Except.error e : Except String (List String × PubState))
              | Except.ok (pids, st2) => Except.ok (pid :: pids, st2)) = Except.ok r := h
          cases hrn : republishN cfg key title par s el pl cp n st1 with
          | error e => rw [hrn] at h2; simp at h2
          | ok rr =>
              rw [hrn] at h2
              obtain ⟨pids, st2⟩ := rr
              injection h2 with hq
              subst hq
              have h1' : pyOptStr (dictGet st1.key_to_page key) = some P := by
                have := hfull.2.1
                simp only at this
                rw [this]
                exact h1
              obtain ⟨hall, hids, hk⟩ := ih st1 (pids, st2) h1' hrn
              refine ⟨?_, ?_, hk⟩
              · simp only [List.all_cons, hall, Bool.and_true]
                have : pid = P := hfull.1
                simp [this]
              · rw [hids]
                exact hfull.2.2.2.2.1

/-- C4 counterexample: with the primary index, the legacy index and the
adoption-by-original-title lookup all missing, ensure_page does NOT
always create a new page — in stC4 (an off-root page owns the bare
title and an on-root page owns the prefixed candidate) the create
collides and the existing page "11" is adopted instead: no page id is
added and the id counter is unchanged. -/
theorem c4_counterexample :
    pyOptStr (dictGet stC4.key_to_page "file:docs/d/s/t.md") = none ∧
    pyOptStr (dictGet stC4.label_to_page (label_for "file:docs/d/s/t.md")) = none ∧
    pyOptStr (adopt_by_title_under_root cfgT stC4.conf "T") = none ∧
    (ensure_page cfgT "file:docs/d/s/t.md" "T" "100" "<p>x</p>" ["md"] [] (some "DOCS")
        stC4).toOption.map (fun r => (r.1, pageIds r.2.conf, r.2.conf.nextId)) =
      some ("11", ["10", "11"], 7) := by decide

/-- C4 amended: ensure_page resolves a key's page by the chain (primary
index; legacy hash-label index with label deletion and index install;
title adoption under the root with stale legacy label removal; create),
except that a title collision during create may adopt an existing
exact-title page under the root instead of creating a new one. -/
theorem c4_amended (cfg : PubCfg) (key title par s : String) (el pl : List String)
    (cp : Option String) (st : PubState) :
    (∀ P r, pyOptStr (dictGet st.key_to_page key) = some P →
        ensure_page cfg key title par s el pl cp st = .ok r →
        r.1 = P ∧ r.2.key_to_page = st.key_to_page ∧ pageIds r.2.conf = pageIds st.conf) ∧
    (∀ L r, pyOptStr (dictGet st.key_to_page key) = none →
        pyOptStr (dictGet st.label_to_page (label_for key)) = some L →
        ensure_page cfg key title par s el pl cp st = .ok r →
        r.1 = L ∧ dictGet r.2.key_to_page key = some L ∧
        hasLabel r.2.conf L (label_for key) = false ∧ pageIds r.2.conf = pageIds st.conf) ∧
    (∀ A r, pyOptStr (dictGet st.key_to_page key) = none →
        pyOptStr (dictGet st.label_to_page (label_for key)) = none →
        pyOptStr (adopt_by_title_under_root cfg st.conf title) = some A →
        ensure_page cfg key title par s el pl cp st = .ok r →
        r.1 = A ∧ dictGet r.2.key_to_page key = some A ∧
        hasLabel r.2.conf A (label_for key) = false ∧ pageIds r.2.conf = pageIds st.conf) ∧
    (∀ r, pyOptStr (dictGet st.key_to_page key) = none →
        pyOptStr (dictGet st.label_to_page (label_for key)) = none →
        pyOptStr (adopt_by_title_under_root cfg st.conf title) = none →
        ensure_page cfg key title par s el pl cp st = .ok r →
        dictGet r.2.key_to_page key = some r.1 ∧
        ((pageIds r.2.conf = pageIds st.conf ++ [r.1] ∧ r.2.conf.nextId = st.conf.nextId + 1) ∨
         (r.1 ∈ pageIds st.conf ∧ pageIds r.2.conf = pageIds st.conf ∧
          r.2.conf.nextId = st.conf.nextId))) := by
  refine ⟨?_, ?_, ?_, ?_⟩
  · intro P r h1 h
    obtain ⟨hP, hk, -, -, hids, -⟩ := ensure_primary_full h1 h
    exact ⟨hP, hk, hids⟩
  · intro L r h1 h2 h
    rw [ensure_page_legacy_eq cfg key title par s el pl cp st L h1 h2] at h
    cases htu : try_update cfg key cp title L par s st.conf with
    | error e => rw [htu] at h; simp at h
    | ok uc =>
        rw [htu] at h
        obtain ⟨used, c1⟩ := uc
        injection h with hq
        subst hq
        refine ⟨rfl, dictGet_set_self .., delete_label_kills .., ?_⟩
        rw [(delete_label_ids ..).1, (write_source_meta_ids ..).1, (add_labels_ids ..).1]
        exact (try_update_ok htu).1
  · intro A r h1 h2 h3 h
    rw [ensure_page_adopt_eq cfg key title par s el pl cp st A h1 h2 h3] at h
    cases htu : try_update cfg key cp title A par s st.conf with
    | error e => rw [htu] at h; simp at h
    | ok uc =>
        rw [htu] at h
        obtain ⟨used, c1⟩ := uc
        injection h with hq
        subst hq
        refine ⟨rfl, dictGet_set_self .., delete_label_kills .., ?_⟩
        rw [(delete_label_ids ..).1, (write_source_meta_ids ..).1, (add_labels_ids ..).1]
        exact (try_update_ok htu).1
  · intro r h1 h2 h3 h
    rw [ensure_page_create_eq cfg key title par s el pl cp st h1 h2 h3] at h
    cases htc : try_create cfg key cp title par s st.conf with
    | error e => rw [htc] at h; simp at h
    | ok uc =>
        rw [htc] at h
        obtain ⟨⟨pid, used⟩, c1⟩ := uc
        injection h with hq
        subst hq
        refine ⟨dictGet_set_self .., ?_⟩
        have hcr := try_create_go_ok cfg key cp title par s _ _ _ _ _ _ htc
        rcases hcr with ⟨hids, hn⟩ | ⟨hmem, hids, hn⟩
        · refine Or.inl ⟨?_, ?_⟩
          · rw [(write_source_meta_ids ..).1, (add_labels_ids ..).1]; exact hids
          · rw [(write_source_meta_ids ..).2, (add_labels_ids ..).2]; exact hn
        · refine Or.inr ⟨hmem, ?_, ?_⟩
          · rw [(write_source_meta_ids ..).1, (add_labels_ids ..).1]; exact hids
          · rw [(write_source_meta_ids ..).2, (add_labels_ids ..).2]; exact hn

theorem strAppend_data (a b : String) : (a ++ b).data = a.data ++ b.data := by
  cases a
  cases b
  rfl

theorem strAppend_left_cancel {a b c : String} (h : a ++ b = a ++ c) : b = c := by
  have hd := congrArg String.data h
  rw [strAppend_data, strAppend_data] at hd
  cases b
  cases c
  exact congrArg String.mk (List.append_cancel_left hd)

theorem strAppend_file_ne_empty (b : String) : "file:" ++ b ≠ "" := by
  intro h
  have hd := congrArg String.data h
  rw [strAppend_data] at hd
  simp at hd

theorem rename_preclaim_hit (e : EntryM) (st : PubState) (old_key P : String)
    (hok : e.rename_from_key = some old_key) (h0 : old_key ≠ "") (hkne : old_key ≠ e.key)
    (hP : pyOptStr (dictGet st.key_to_page old_key) = some P)
    (hnew : dictGet st.key_to_page e.key = none) :
    rename_preclaim e st = { st with key_to_page := dictSet st.key_to_page e.key P } := by
  unfold rename_preclaim
  rw [hok]
  simp only [hP]
  rw [if_pos ⟨h0, hkne⟩, if_pos hnew]

theorem rename_cleanup_eq (e : EntryM) (pid : String) (s1 : PubState) (old_key op : String)
    (hok : e.rename_from_key = some old_key) (hop : e.rename_from_path = some op)
    (h0 : old_key ≠ "") (hkne : old_key ≠ e.key) (hopne : op ≠ "")
    (hself : dictGet s1.key_to_page old_key = some pid) :
    rename_cleanup e pid s1 = { s1 with
      path_to_page := dictPop (dictSet s1.path_to_page e.current_path pid) op,
      key_to_page := dictPop s1.key_to_page old_key } := by
  unfold rename_cleanup
  rw [hok, hop]
  simp [hopne, h0, hkne, hself]

/-- C3: rename stability.  When a change entry renames old.md to new.md,
the old key file:old.md maps to page id P and the new key file:new.md is
not yet claimed, a successful publish of the entry returns P (the page
is updated, never created: the set of remote page ids is unchanged),
and afterwards the old path and old key are gone from the in-memory
indexes while the new key resolves to P. -/
theorem c3_rename_stability (cfg : PubCfg) (conv : String → String → String × List String)
    (e : EntryM) (st : PubState) (P op : String) (r : String × PubState)
    (hok : e.rename_from_key = some ("file:" ++ op))
    (hop : e.rename_from_path = some op)
    (hopne : op ≠ "")
    (hkey : e.key = "file:" ++ e.current_path)
    (hne : e.current_path ≠ op)
    (hP : pyOptStr (dictGet st.key_to_page ("file:" ++ op)) = some P)
    (hnew : dictGet st.key_to_page e.key = none)
    (h : publish_entry cfg conv e st = .ok r) :
    r.1 = P ∧ dictGet r.2.key_to_page e.key = some P ∧
    dictGet r.2.key_to_page ("file:" ++ op) = none ∧
    dictGet r.2.path_to_page op = none ∧
    pageIds r.2.conf = pageIds st.conf := by
  have hkne : ("file:" ++ op) ≠ e.key := by
    rw [hkey]
    intro hcontra
    exact hne (strAppend_left_cancel hcontra).symm
  have hPne : P ≠ "" := (pyOptStr_eq_some hP).2
  have hpre := rename_preclaim_hit e st ("file:" ++ op) P hok (strAppend_file_ne_empty op)
    hkne hP hnew
  unfold publish_entry at h
  rw [hpre] at h
  cases hcv : conv e.md_text e.current_path with
  | mk storage plabels =>
      rw [hcv] at h
      have h2 : (match ensure_page cfg e.key e.title e.parent_id storage ["md"] plabels
            (some e.collision_pfx) { st with key_to_page := dictSet st.key_to_page e.key P } with
          | .error err => (.error err : Except String (String × PubState))
          | .ok (pid, s1) => .ok (pid, rename_cleanup e pid s1)) = .ok r := h
      have h1 : pyOptStr (dictGet
          ({ st with key_to_page := dictSet st.key_to_page e.key P } : PubState).key_to_page
          e.key) = some P := by
        simp only [dictGet_set_self]
        simp [pyOptStr, hPne]
      cases he : ensure_page cfg e.key e.title e.parent_id storage ["md"] plabels
          (some e.collision_pfx) { st with key_to_page := dictSet st.key_to_page e.key P } with
      | error err => rw [he] at h2; simp at h2
      | ok rc =>
          rw [he] at h2
          obtain ⟨pid, s1⟩ := rc
          injection h2 with hq
          have hfull := ensure_primary_full h1 he
          have hpidP : pid = P := hfull.1
          have hk2p : s1.key_to_page = dictSet st.key_to_page e.key P := hfull.2.1
          have hself : dictGet s1.key_to_page ("file:" ++ op) = some pid := by
            rw [hk2p, dictGet_set_other st.key_to_page e.key P ("file:" ++ op) hkne, hpidP]
            exact (pyOptStr_eq_some hP).1
          have hclean := rename_cleanup_eq e pid s1 ("file:" ++ op) op hok hop
            (strAppend_file_ne_empty op) hkne hopne hself
          rw [hclean] at hq
          subst hq
          refine ⟨hpidP, ?_, ?_, ?_, ?_⟩
          · simp only
            rw [dictGet_pop_other s1.key_to_page ("file:" ++ op) e.key (Ne.symm hkne), hk2p,
              dictGet_set_self]
          · simp only
            rw [dictGet_pop_self]
          · simp only
            rw [dictGet_pop_self]
          · simpa using hfull.2.2.2.2.1

/-- C2 counterexample: strip_front_matter does raise.  The text below
has a well-delimited front-matter block whose content "a: [" is
unparseable; PyYAML raises a ScannerError on it, and strip_front_matter
wraps the loader call in no handler, so the error escapes instead of
degrading to an empty mapping. -/
theorem c2_counterexample :
    strip_front_matter yamlLoaderRaising "---\na: [\n---\nbody" =
      Except.error "ScannerError: while parsing a flow node" := by rfl

/-- C2 amended: for every loader and text, if the text does not begin
with a well-delimited front-matter block the result is an empty mapping
and the original text unchanged; if the block is well-delimited, a
loader failure propagates as an exception (it is not degraded), and a
loader success yields the parsed value (empty mapping when falsy) and
the body after the block. -/
theorem c2_amended (load : YamlLoader) (md : String) :
    (fmMatch md = none → strip_front_matter load md = .ok (.map [], md)) ∧
    (∀ raw body e, fmMatch md = some (raw, body) → load raw = .error e →
      strip_front_matter load md = .error e) ∧
    (∀ raw body v, fmMatch md = some (raw, body) → load raw = .ok v →
      strip_front_matter load md = .ok ((if yamlFalsy v then .map [] else v), body)) := by
  refine ⟨?_, ?_, ?_⟩
  · intro h
    unfold strip_front_matter
    rw [h]
  · intro raw body e hm hl
    unfold strip_front_matter
    rw [hm]
    show (match load raw with
        | Except.error e => (Except.error e : Except String (Yaml × String))
        | Except.ok v => Except.ok (if yamlFalsy v = true then Yaml.map [] else v, body)) =
      Except.error e
    rw [hl]
  · intro raw body v hm hl
    unfold strip_front_matter
    rw [hm]
    show (match load raw with
        | Except.error e => (Except.error e : Except String (Yaml × String))
        | Except.ok v => Except.ok (if yamlFalsy v = true then Yaml.map [] else v, body)) =
      Except.ok (if yamlFalsy v = true then Yaml.map [] else v, body)
    rw [hl]

/-- The candidate sequence exactly as the claim words it: the bare
title; then, only if a prefix was supplied and the title does not
already start with it, the prefixed form; then always the hash-suffixed
form; in order and deduplicated. -/
def title_candidates_claimed (key : String) (collision_pfx : Option String) (title : String) :
    List String :=
  dedupKeepOrder ([title] ++
    (match collision_pfx with
     | some p => if ¬strStartsWith title p then [p ++ " · " ++ title] else []
     | none => []) ++
    [title ++ " [" ++ strTake (sha1hex key) 6 ++ "]"])

/-- C5 counterexample: the claimed sequence starts with the title as
given, but the code strips the title first (and drops it entirely when
the strip is empty), so for the title " Hello" the sequences differ. -/
theorem c5_counterexample :
    title_candidates "file:docs/a.md" (some "DOCS") " Hello" ≠
      title_candidates_claimed "file:docs/a.md" (some "DOCS") " Hello" ∧
    (title_candidates "file:docs/a.md" (some "DOCS") " Hello").headD "" = "Hello" ∧
    (title_candidates_claimed "file:docs/a.md" (some "DOCS") " Hello").headD "" = " Hello" := by
  decide

/-- The candidate sequence as amended: the whitespace-stripped title
when non-empty; then, only if a truthy prefix whose strip is non-empty
was supplied and the stripped title does not already start with the
stripped prefix, the prefixed form; then always the hash-suffixed form
built from the stripped title; in order and deduplicated. -/
def title_candidates_amended_spec (key : String) (collision_pfx : Option String)
    (title : String) : List String :=
  let base := pyStrip title
  dedupKeepOrder ((if base ≠ "" then [base] else []) ++
    (match collision_pfx with
     | some cp =>
         if cp ≠ "" ∧ pyStrip cp ≠ "" ∧ ¬strStartsWith base (pyStrip cp) then
           [pyStrip cp ++ " · " ++ base]
         else []
     | none => []) ++
    [base ++ " [" ++ strTake (sha1hex key) 6 ++ "]"])

theorem dedup_ne_nil (l : List String) (h : l ≠ []) : dedupKeepOrder l ≠ [] := by
  cases l with
  | nil => exact absurd rfl h
  | cons x xs => simp [dedupKeepOrder, dedupAux]

/-- C5 amended: for every key, title and optional collision prefix the
code's candidate sequence equals the amended specification and is never
empty. -/
theorem c5_amended (key : String) (cpfx : Option String) (title : String) :
    title_candidates key cpfx title = title_candidates_amended_spec key cpfx title ∧
    title_candidates key cpfx title ≠ [] := by
  constructor
  · unfold title_candidates title_candidates_amended_spec
    cases cpfx with
    | none => rfl
    | some cp =>
        by_cases h1 : cp = ""
        · simp [h1]
        · by_cases h2 : pyStrip cp = ""
          · simp [h1, h2]
          · by_cases h3 : strStartsWith (pyStrip title) (pyStrip cp)
            · simp [h1, h2, h3]
            · simp [h1, h2, h3]
  · unfold title_candidates
    exact dedup_ne_nil _ (by simp)

/-- C6 counterexample: normalizing the document whose heading is the
numbered level-2 heading "1.1 Second" (with numbering strip, promotion
and in-text auto-numbering enabled, the publisher's converter options)
yields the heading text "1. Second" at output level 1, not the
"1.1. Second" the claim states — at level 1 the injected prefix is a
single counter value. -/
theorem c6_counterexample :
    normalize_markdown convCfg "## 1.1 Second\n" = "# 1. Second\n" ∧
    normalize_markdown convCfg "## 1.1 Second\n" ≠ "# 1.1. Second\n" := by decide

/-- C6 amended: `## 1.1 Second` normalizes to `1. Second` at output
level 1; the `1.1.` prefix arises one level deeper (after `## A`, the
heading `### 1.1 Second` becomes `1.1. Second` at level 2); and a
second pass over the already-numbered output adds no duplicate prefix —
the numbering strip removes the injected number before renumbering
(while the leading level-1 heading is consumed as the page title). -/
theorem c6_amended :
    normalize_markdown convCfg "## 1.1 Second\n" = "# 1. Second\n" ∧
    normalize_markdown convCfg "## A\n### 1.1 Second\n" = "# 1. A\n## 1.1. Second\n" ∧
    normalize_markdown convCfg "# 1. A\n## 1.1. Second\n" = "# 1. Second\n" := by decide

/-- The auto-numbering counter discipline exactly as the specification
words it: the level-1 counter increments and resets levels 2 and 3; the
level-2 counter increments and resets level 3; a shallower counter
still at 0 when a deeper level is numbered is seeded to 1; the injected
prefix is the dotted counter string. -/
def autoNumSpec : Nat × Nat × Nat → Nat → (Nat × Nat × Nat) × String
  | (n1, _, _), 1 => ((n1 + 1, 0, 0), Nat.repr (n1 + 1) ++ ". ")
  | (n1, n2, _), 2 =>
      let m1 := if n1 = 0 then 1 else n1
      ((m1, n2 + 1, 0), Nat.repr m1 ++ "." ++ Nat.repr (n2 + 1) ++ ". ")
  | (n1, n2, n3), _ =>
      let m1 := if n1 = 0 then 1 else n1
      let m2 := if n2 = 0 then 1 else n2
      ((m1, m2, n3 + 1),
        Nat.repr m1 ++ "." ++ Nat.repr m2 ++ "." ++ Nat.repr (n3 + 1) ++ ". ")

theorem numberHeading_spec (st : NormSt) (lvl : Nat) :
    numberHeading st lvl =
      ({ st with n1 := (autoNumSpec (st.n1, st.n2, st.n3) lvl).1.1,
                 n2 := (autoNumSpec (st.n1, st.n2, st.n3) lvl).1.2.1,
                 n3 := (autoNumSpec (st.n1, st.n2, st.n3) lvl).1.2.2 },
       (autoNumSpec (st.n1, st.n2, st.n3) lvl).2.data) := by
  match lvl with
  | 0 => simp [numberHeading, autoNumSpec, strAppend_data]
  | 1 => simp [numberHeading, autoNumSpec, strAppend_data]
  | 2 => simp [numberHeading, autoNumSpec, strAppend_data]
  | (n + 3) => simp [numberHeading, autoNumSpec, strAppend_data]

/-- C7: with in-text auto-numbering enabled the per-line normalizer
numbers only headings at post-promotion levels 1 to 3 (and within the
configured maximum): a line seen inside a fenced code region is passed
through verbatim with all counters unchanged (it is never treated as a
heading); a heading whose promoted level exceeds 3 or the configured
maximum is rebuilt without any injected prefix and leaves the counters
unchanged; and a numbered heading updates the three counters exactly as
the claimed counter discipline (increment with reset of the deeper
levels, seeding a shallower zero counter to 1), injecting the computed
prefix unless the text already starts with it. -/
theorem c7_autonumbering (cfg : NormCfg) (st : NormSt) (core : List Char)
    (hnum : cfg.heading_numbering_in_text = true) :
    (st.in_fence = true → (normLine cfg st core).2 = some core ∧
       (normLine cfg st core).1.n1 = st.n1 ∧ (normLine cfg st core).1.n2 = st.n2 ∧
       (normLine cfg st core).1.n3 = st.n3) ∧
    (∀ lvl0 t0, st.in_fence = false → fenceMatch core = false →
       headMatch core = some (lvl0, t0) →
       ¬(lvl0 = 1 ∧ cfg.strip_title_h1 = true ∧ st.removed_first_h1 = false) →
       ((promoLevel cfg lvl0 ≤ 3 ∧ promoLevel cfg lvl0 ≤ maxLvl cfg →
          normLine cfg st core =
            ({ st with
                n1 := (autoNumSpec (st.n1, st.n2, st.n3) (promoLevel cfg lvl0)).1.1,
                n2 := (autoNumSpec (st.n1, st.n2, st.n3) (promoLevel cfg lvl0)).1.2.1,
                n3 := (autoNumSpec (st.n1, st.n2, st.n3) (promoLevel cfg lvl0)).1.2.2 },
             some (List.replicate (promoLevel cfg lvl0) '#' ++ [' '] ++
               (if (autoNumSpec (st.n1, st.n2, st.n3) (promoLevel cfg lvl0)).2.data.isPrefixOf
                    (stripHeadingNumPfx cfg t0) = true
                then stripHeadingNumPfx cfg t0
                else (autoNumSpec (st.n1, st.n2, st.n3) (promoLevel cfg lvl0)).2.data ++
                  stripHeadingNumPfx cfg t0)))) ∧
        (3 < promoLevel cfg lvl0 ∨ maxLvl cfg < promoLevel cfg lvl0 →
          normLine cfg st core =
            (st, some (List.replicate (promoLevel cfg lvl0) '#' ++ [' '] ++
              stripHeadingNumPfx cfg t0))))) := by
  constructor
  · intro hf
    unfold normLine
    by_cases hfm : fenceMatch core
    · simp [hfm, hf]
    · simp [hfm, hf]
  · intro lvl0 t0 hf hfm hhm hnot
    have hcond : (decide (lvl0 = 1) && cfg.strip_title_h1 && !st.removed_first_h1) = false := by
      by_cases h1 : lvl0 = 1
      · by_cases h2 : cfg.strip_title_h1
        · by_cases h3 : st.removed_first_h1
          · simp [h3]
          · exact absurd ⟨h1, h2, by simpa using h3⟩ hnot
        · simp [by simpa using h2]
      · simp [h1]
    constructor
    · intro ⟨hle3, hlem⟩
      unfold normLine
      rw [if_neg (by simp [hfm]), if_neg (by simp [hf]), hhm]
      show (if lvl0 = 1 && cfg.strip_title_h1 && !st.removed_first_h1 then
          ({ st with removed_first_h1 := true }, none)
        else
          if cfg.heading_numbering_in_text && promoLevel cfg lvl0 ≤ 3 &&
              promoLevel cfg lvl0 ≤ maxLvl cfg then
            ((numberHeading st (promoLevel cfg lvl0)).1,
              some (List.replicate (promoLevel cfg lvl0) '#' ++ [' '] ++
                (if (numberHeading st (promoLevel cfg lvl0)).2.isPrefixOf
                     (stripHeadingNumPfx cfg t0) = true
                 then stripHeadingNumPfx cfg t0
                 else (numberHeading st (promoLevel cfg lvl0)).2 ++ stripHeadingNumPfx cfg t0)))
          else
            (st, some (List.replicate (promoLevel cfg lvl0) '#' ++ [' '] ++
              stripHeadingNumPfx cfg t0))) = _
      rw [hcond]
      simp only [Bool.false_eq_true, if_false]
      rw [if_pos (by simp [hnum, hle3, hlem])]
      rw [numberHeading_spec]
    · intro hgt
      unfold normLine
      rw [if_neg (by simp [hfm]), if_neg (by simp [hf]), hhm]
      show (if lvl0 = 1 && cfg.strip_title_h1 && !st.removed_first_h1 then
          ({ st with removed_first_h1 := true }, none)
        else
          if cfg.heading_numbering_in_text && promoLevel cfg lvl0 ≤ 3 &&
              promoLevel cfg lvl0 ≤ maxLvl cfg then
            ((numberHeading st (promoLevel cfg lvl0)).1,
              some (List.replicate (promoLevel cfg lvl0) '#' ++ [' '] ++
                (if (numberHeading st (promoLevel cfg lvl0)).2.isPrefixOf
                     (stripHeadingNumPfx cfg t0) = true
                 then stripHeadingNumPfx cfg t0
                 else (numberHeading st (promoLevel cfg lvl0)).2 ++ stripHeadingNumPfx cfg t0)))
          else
            (st, some (List.replicate (promoLevel cfg lvl0) '#' ++ [' '] ++
              stripHeadingNumPfx cfg t0))) = _
      rw [hcond]
      simp only [Bool.false_eq_true, if_false]
      rw [if_neg ?hneg]
      case hneg =>
        rcases hgt with hgt | hgt
        · simp [Nat.not_le_of_lt hgt]
        · simp [Nat.not_le_of_lt hgt]

theorem base_path_of_congr {b1 b2 : String} (h : (urlparse b1).path = (urlparse b2).path) :
    base_path_of b1 = base_path_of b2 := by
  unfold base_path_of
  rw [h]

/-- C9: the link resolver never embeds the configured base host.  Two
runs whose configured base addresses have the same path portion (in
particular, addresses differing only in scheme or host) produce
identical resolver results for every href, current path and path index;
and every URL the resolver returns is context-relative — the base
address's path portion (normalized by base_path_of, which strips a
trailing /rest/api suffix) followed by the fixed page-view template
parameterized by the looked-up page id, with the original link's
fragment preserved. -/
theorem c9_link_host_independence :
    (∀ b1 b2 p2p href cur, (urlparse b1).path = (urlparse b2).path →
       link_resolver b1 p2p href cur = link_resolver b2 p2p href cur) ∧
    (∀ b p2p href cur url, link_resolver b p2p href cur = some url →
       ∃ cur0 target pid, cur = some cur0 ∧ resolved_target href cur0 = some target ∧
         pyOptStr (dictGet p2p target) = some pid ∧
         url = (if (urlparse href).fragment ≠ "" then
             base_path_of b ++ "/pages/viewpage.action?pageId=" ++ pid ++ "#" ++
               (urlparse href).fragment
           else base_path_of b ++ "/pages/viewpage.action?pageId=" ++ pid)) := by
  constructor
  · intro b1 b2 p2p href cur h
    unfold link_resolver
    rw [base_path_of_congr h]
  · intro b p2p href cur url h
    unfold link_resolver at h
    cases cur with
    | none => exact absurd h (by simp)
    | some cur0 =>
        have h2 : (if cur0 = "" then none
            else match resolved_target href cur0 with
              | none => none
              | some target =>
                match pyOptStr (dictGet p2p target) with
                | none => none
                | some pid =>
                    some (if (urlparse href).fragment ≠ "" then
                        base_path_of b ++ "/pages/viewpage.action?pageId=" ++ pid ++ "#" ++
                          (urlparse href).fragment
                      else base_path_of b ++ "/pages/viewpage.action?pageId=" ++ pid)) =
            some url := h
        by_cases h0 : cur0 = ""
        · rw [if_pos h0] at h2
          exact absurd h2 (by simp)
        · rw [if_neg h0] at h2
          cases ht : resolved_target href cur0 with
          | none => rw [ht] at h2; exact absurd h2 (by simp)
          | some target =>
              rw [ht] at h2
              have h3 : (match pyOptStr (dictGet p2p target) with
                  | none => none
                  | some pid =>
                      some (if (urlparse href).fragment ≠ "" then
                          base_path_of b ++ "/pages/viewpage.action?pageId=" ++ pid ++ "#" ++
                            (urlparse href).fragment
                        else base_path_of b ++ "/pages/viewpage.action?pageId=" ++ pid)) =
                  some url := h2
              cases hp : pyOptStr (dictGet p2p target) with
              | none => rw [hp] at h3; exact absurd h3 (by simp)
              | some pid =>
                  rw [hp] at h3
                  refine ⟨cur0, target, pid, rfl, ht, hp, ?_⟩
                  exact (Option.some.inj h3).symm

/-- C8 counterexample: the unresolved-marker attribute carries the
whitespace-stripped href, not the original href.  For the anchor whose
href is " doc.md" (no resolver set), the marker is "doc.md" while the
original href — left visible — is " doc.md". -/
theorem c8_counterexample :
    (rewrite_anchor none none { href := " doc.md", dataSourceHref := none }).dataSourceHref =
      some "doc.md" ∧
    (rewrite_anchor none none { href := " doc.md", dataSourceHref := none }).href = " doc.md" ∧
    some "doc.md" ≠ some " doc.md" := by decide

/-- C8 amended: _rewrite_links maps every anchor through the per-anchor
step; anchors whose stripped href is empty are untouched; when the
resolver returns a non-empty value for the stripped href the href is
replaced by it; when no resolver is set or the resolver returns nothing
or an empty value, an internal-looking markdown href (ends in .md or
contains .md#, case-insensitively, judged on the stripped href) gets
the unresolved marker carrying the stripped href with the visible href
unchanged, and all other anchors are left untouched. -/
theorem c8_amended (resolver : Option (String → Option String → Option String))
    (cur : Option String) (a : Anchor) (anchors : List Anchor) :
    (rewrite_links resolver cur anchors = anchors.map (rewrite_anchor resolver cur)) ∧
    (pyStrip a.href = "" → rewrite_anchor resolver cur a = a) ∧
    (∀ r nh, resolver = some r → pyStrip a.href ≠ "" → r (pyStrip a.href) cur = some nh →
       nh ≠ "" → rewrite_anchor resolver cur a = { a with href := nh }) ∧
    (pyStrip a.href ≠ "" →
       (resolver = none ∨ (∃ r, resolver = some r ∧ (r (pyStrip a.href) cur = none ∨
           r (pyStrip a.href) cur = some ""))) →
       looksInternalMd (pyStrip a.href) = true →
       rewrite_anchor resolver cur a = { a with dataSourceHref := some (pyStrip a.href) }) ∧
    (pyStrip a.href ≠ "" →
       (resolver = none ∨ (∃ r, resolver = some r ∧ (r (pyStrip a.href) cur = none ∨
           r (pyStrip a.href) cur = some ""))) →
       looksInternalMd (pyStrip a.href) = false →
       rewrite_anchor resolver cur a = a) := by
  refine ⟨rfl, ?_, ?_, ?_, ?_⟩
  · intro h
    unfold rewrite_anchor
    rw [if_pos h]
  · intro r nh hres hne hrv hnh
    unfold rewrite_anchor
    rw [if_neg hne, hres]
    show (match r (pyStrip a.href) cur with
        | some nh2 => if nh2 = "" then
            (if looksInternalMd (pyStrip a.href) = true then
              { a with dataSourceHref := some (pyStrip a.href) } else a)
          else { a with href := nh2 }
        | none =>
            (if looksInternalMd (pyStrip a.href) = true then
              { a with dataSourceHref := some (pyStrip a.href) } else a)) = _
    rw [hrv]
    show (if nh = "" then
        (if looksInternalMd (pyStrip a.href) = true then
          { a with dataSourceHref := some (pyStrip a.href) } else a)
      else { a with href := nh }) = _
    rw [if_neg hnh]
  · intro hne hmiss hmd
    unfold rewrite_anchor
    rw [if_neg hne]
    rcases hmiss with hres | ⟨r, hres, hrv⟩
    · rw [hres]
      show (if looksInternalMd (pyStrip a.href) = true then
          { a with dataSourceHref := some (pyStrip a.href) } else a) = _
      rw [if_pos hmd]
    · rw [hres]
      show (match r (pyStrip a.href) cur with
          | some nh2 => if nh2 = "" then
              (if looksInternalMd (pyStrip a.href) = true then
                { a with dataSourceHref := some (pyStrip a.href) } else a)
            else { a with href := nh2 }
          | none =>
              (if looksInternalMd (pyStrip a.href) = true then
                { a with dataSourceHref := some (pyStrip a.href) } else a)) = _
      rcases hrv with hrv | hrv
      · rw [hrv, if_pos hmd]
      · rw [hrv]
        show (if ("" : String) = "" then
            (if looksInternalMd (pyStrip a.href) = true then
              { a with dataSourceHref := some (pyStrip a.href) } else a)
          else { a with href := "" }) = _
        rw [if_pos rfl, if_pos hmd]
  · intro hne hmiss hmd
    unfold rewrite_anchor
    rw [if_neg hne]
    rcases hmiss with hres | ⟨r, hres, hrv⟩
    · rw [hres]
      show (if looksInternalMd (pyStrip a.href) = true then
          { a with dataSourceHref := some (pyStrip a.href) } else a) = _
      rw [if_neg (by simp [hmd])]
    · rw [hres]
      show (match r (pyStrip a.href) cur with
          | some nh2 => if nh2 = "" then
              (if looksInternalMd (pyStrip a.href) = true then
                { a with dataSourceHref := some (pyStrip a.href) } else a)
            else { a with href := nh2 }
          | none =>
              (if looksInternalMd (pyStrip a.href) = true then
                { a with dataSourceHref := some (pyStrip a.href) } else a)) = _
      rcases hrv with hrv | hrv
      · rw [hrv, if_neg (by simp [hmd])]
      · rw [hrv]
        show (if ("" : String) = "" then
            (if looksInternalMd (pyStrip a.href) = true then
              { a with dataSourceHref := some (pyStrip a.href) } else a)
          else { a with href := "" }) = _
        rw [if_pos rfl, if_neg (by simp [hmd])]

/-! Concrete states and results used by the witnesses. -/

def stPrimW : PubState :=
  { conf := { pages := [⟨"777", "Old", "100", "", 1, [], []⟩], nextId := 0 },
    key_to_page := [("file:docs/a.md", "777")], label_to_page := [], path_to_page := [] }

def rC1 : List String × PubState :=
  (republishN cfgT "file:docs/a.md" "Hello" "100" "<p>x</p>" ["md"] [] (some "DOCS")
    2 stPrimW).toOption.getD ([], stEmpty)

theorem c1_witness :
    pyOptStr (dictGet stPrimW.key_to_page "file:docs/a.md") = some "777" ∧
    (rC1.1.all (fun x => x == "777") = true ∧ pageIds rC1.2.conf = pageIds stPrimW.conf ∧
      pyOptStr (dictGet rC1.2.key_to_page "file:docs/a.md") = some "777") :=
  ⟨by decide, c1_idempotent_republish cfgT "file:docs/a.md" "Hello" "100" "<p>x</p>" ["md"] []
    (some "DOCS") "777" 2 stPrimW rC1 (by decide) (by rfl)⟩

def rC10 : String × PubState :=
  (ensure_page cfgT "file:docs/a.md" "Hello" "100" "<p>x</p>" ["md"] [] (some "DOCS")
    stEmpty).toOption.getD ("", stEmpty)

theorem c10_witness : dictGet rC10.2.key_to_page "file:docs/a.md" = some rC10.1 :=
  c10_index_consistency cfgT "file:docs/a.md" "Hello" "100" "<p>x</p>" ["md"] [] (some "DOCS")
    stEmpty rC10 (by rfl)

theorem c2_witness :
    fmMatch "---\na: [\n---\nbody" = some ("a: [", "body") ∧
    yamlLoaderRaising "a: [" = Except.error "ScannerError: while parsing a flow node" ∧
    strip_front_matter yamlLoaderRaising "---\na: [\n---\nbody" =
      Except.error "ScannerError: while parsing a flow node" :=
  ⟨by decide, by rfl,
    (c2_amended yamlLoaderRaising "---\na: [\n---\nbody").2.1 "a: [" "body"
      "ScannerError: while parsing a flow node" (by decide) (by rfl)⟩

def convW : String → String → String × List String := fun _ _ => ("<p>x</p>", [])

def eC3 : EntryM :=
  { current_path := "docs/d/s/new.md", md_text := "# New\n", title := "New",
    key := "file:docs/d/s/new.md", parent_id := "100", collision_pfx := "DOCS",
    rename_from_key := some "file:docs/d/s/old.md",
    rename_from_path := some "docs/d/s/old.md" }

def stC3 : PubState :=
  { conf := { pages := [⟨"7", "Old title", "100", "", 1, [], []⟩], nextId := 3 },
    key_to_page := [("file:docs/d/s/old.md", "7")], label_to_page := [],
    path_to_page := [("docs/d/s/old.md", "7")] }

def rC3 : String × PubState :=
  (publish_entry cfgT convW eC3 stC3).toOption.getD ("", stEmpty)

theorem c3_witness :
    rC3.1 = "7" ∧ dictGet rC3.2.key_to_page "file:docs/d/s/new.md" = some "7" ∧
    dictGet rC3.2.key_to_page ("file:" ++ "docs/d/s/old.md") = none ∧
    dictGet rC3.2.path_to_page "docs/d/s/old.md" = none ∧
    pageIds rC3.2.conf = pageIds stC3.conf := by
  have h := c3_rename_stability cfgT convW eC3 stC3 "7" "docs/d/s/old.md" rC3
    (by decide) (by rfl) (by decide) (by decide) (by decide) (by decide) (by rfl) (by rfl)
  exact ⟨h.1, h.2.1, h.2.2.1, h.2.2.2.1, h.2.2.2.2⟩

def confLeg : ConfState :=
  { pages := [⟨"777", "Old", "100", "", 1, [label_for "file:docs/a.md"], []⟩], nextId := 2 }

def stLeg : PubState :=
  { conf := confLeg, key_to_page := [],
    label_to_page := [(label_for "file:docs/a.md", "777")], path_to_page := [] }

def rC4 : String × PubState :=
  (ensure_page cfgT "file:docs/a.md" "Hello" "100" "<p>x</p>" ["md"] [] (some "DOCS")
    stLeg).toOption.getD ("", stEmpty)

theorem c4_witness :
    rC4.1 = "777" ∧ dictGet rC4.2.key_to_page "file:docs/a.md" = some "777" ∧
    hasLabel rC4.2.conf "777" (label_for "file:docs/a.md") = false ∧
    pageIds rC4.2.conf = pageIds stLeg.conf :=
  (c4_amended cfgT "file:docs/a.md" "Hello" "100" "<p>x</p>" ["md"] [] (some "DOCS")
    stLeg).2.1 "777" rC4 (by decide) (by decide) (by rfl)

theorem c7_witness :
    normLine convCfg ⟨false, false, 0, 0, 0⟩ ("### Hi".data) =
      (⟨false, false, 1, 1, 0⟩, some ("## 1.1. Hi".data)) := by
  have h := ((c7_autonumbering convCfg ⟨false, false, 0, 0, 0⟩ ("### Hi".data) rfl).2
    3 ("Hi".data) rfl (by decide) (by decide) (by decide)).1 ⟨by decide, by decide⟩
  exact h.trans (by decide)

theorem c8_witness :
    rewrite_anchor none none { href := "guide.md#x", dataSourceHref := none } =
      { href := "guide.md#x", dataSourceHref := some "guide.md#x" } := by
  have h := (c8_amended none none ⟨"guide.md#x", none⟩ []).2.2.2.1 (by decide) (Or.inl rfl)
    (by decide)
  exact h.trans (by decide)

def p2pW : Dict := [("docs/a/b.md", "123")]

theorem c9_witness :
    (urlparse "http://host.docker.internal:8090/wiki").path =
      (urlparse "https://conf.company.ru/wiki").path ∧
    link_resolver "http://host.docker.internal:8090/wiki" p2pW "./b.md#sec"
      (some "docs/a/c.md") =
    link_resolver "https://conf.company.ru/wiki" p2pW "./b.md#sec" (some "docs/a/c.md") :=
  ⟨by decide, (c9_link_host_independence).1 "http://host.docker.internal:8090/wiki"
    "https://conf.company.ru/wiki" p2pW "./b.md#sec" (some "docs/a/c.md") (by decide)⟩
